import Mathlib

/-!
Verification of the core of a small recursive ray tracer (src/main3.py).

The embedding is a shallow translation of the Python source into Lean:

* Python floats are modelled as exact rationals.  The source calls
  math.sqrt; the embedding is parametric in an abstract square-root
  function `sq : ℚ → ℚ`, and theorems whose truth depends on the value of
  a square root carry explicit hypotheses such as `sq d * sq d = d` and
  `0 ≤ sq d` about the one square root they use.
* Fallible Python code (ZeroDivisionError / ValueError on division by
  exactly zero, TypeError on an unsupported operand) is modelled with
  `Except Err`.
* The classes Vector3, Ray, Material, Light, Sphere, Camera and Scene are
  structures; their methods are functions translated line by line.
-/

namespace RayTracer

/-- The error kinds the source can raise while computing a color:
division by exactly zero (Python ZeroDivisionError, and the explicit
ValueError raised by Vector3 division), an unsupported-operand TypeError
(the spec's TypeMismatch), and an AttributeError (accessing `.x` on an
operand that has no such field). -/
inductive Err where
  | divisionByZero
  | typeMismatch
  | attributeError
deriving DecidableEq

/-- Python's `/` on numbers: raises ZeroDivisionError when the divisor is
exactly zero, otherwise exact division. -/
def qdiv (x y : ℚ) : Except Err ℚ :=
  if y = 0 then .error .divisionByZero else .ok (x / y)

/-- `class Vector3` (main3.py lines 7-92): an x, y, z triple of numbers,
used both as a point/direction and as a linear RGB color. -/
structure Vector3 where
  x : ℚ
  y : ℚ
  z : ℚ
deriving DecidableEq

namespace Vector3

/-- `__add__` (lines 13-17): component-wise sum, fresh vector. -/
def add (self other : Vector3) : Vector3 :=
  ⟨self.x + other.x, self.y + other.y, self.z + other.z⟩

instance : Add Vector3 := ⟨add⟩

/-- `__neg__` (lines 19-20): component-wise negation, fresh vector. -/
def neg (self : Vector3) : Vector3 := ⟨-self.x, -self.y, -self.z⟩

instance : Neg Vector3 := ⟨neg⟩

/-- `__sub__` (lines 22-26): component-wise difference, fresh vector. -/
def sub (self other : Vector3) : Vector3 :=
  ⟨self.x - other.x, self.y - other.y, self.z - other.z⟩

instance : Sub Vector3 := ⟨sub⟩

/-- `__mul__` with a Vector3 operand (lines 28-30): Hadamard product. -/
def hmul (self other : Vector3) : Vector3 :=
  ⟨self.x * other.x, self.y * other.y, self.z * other.z⟩

/-- `__mul__` with an int/float operand (lines 31-32), also `__rmul__`
(line 35): scalar product. -/
def smul (self : Vector3) (other : ℚ) : Vector3 :=
  ⟨self.x * other, self.y * other, self.z * other⟩

/-- `__truediv__` (lines 37-40): raises on a zero divisor, otherwise a
fresh component-wise quotient. -/
def truediv (self : Vector3) (scalar : ℚ) : Except Err Vector3 :=
  if scalar = 0 then .error .divisionByZero
  else .ok ⟨self.x / scalar, self.y / scalar, self.z / scalar⟩

/-- `__itruediv__` (lines 42-48): raises on a zero divisor, otherwise
assigns the quotients back into `self`'s own fields and returns `self`.
The returned vector is the *new state of the receiver object*; unlike
every other operation, the receiver is mutated in place. -/
def itruediv (self : Vector3) (scalar : ℚ) : Except Err Vector3 :=
  if scalar = 0 then .error .divisionByZero
  else .ok ⟨self.x / scalar, self.y / scalar, self.z / scalar⟩

/-- `dot` (lines 50-54). -/
def dot (self other : Vector3) : ℚ :=
  self.x * other.x + self.y * other.y + self.z * other.z

/-- `cross` (lines 56-60). -/
def cross (self other : Vector3) : Vector3 :=
  ⟨self.y * other.z - self.z * other.y,
   -(self.x * other.z) + self.z * other.x,
   self.x * other.y - self.y * other.x⟩

/-- `length` (lines 62-67): sqrt of the sum of squared components, with
the source's math.sqrt abstracted as `sq`. -/
def length (sq : ℚ → ℚ) (self : Vector3) : ℚ :=
  sq (self.x ^ 2 + self.y ^ 2 + self.z ^ 2)

/-- `normalize` (lines 69-76): divide by the length when it is nonzero,
otherwise return the zero vector (the degenerate case is not an error). -/
def normalize (sq : ℚ → ℚ) (self : Vector3) : Vector3 :=
  let l := self.length sq
  if l ≠ 0 then ⟨self.x / l, self.y / l, self.z / l⟩
  else ⟨0, 0, 0⟩

/-- `reflect` (lines 78-79): self − 2·(self·normal)·normal. -/
def reflect (self normal : Vector3) : Vector3 :=
  self - (normal.smul (2 * self.dot normal))

/-- `rgb` (lines 81-86): clamp each channel to [0, 1], scale by 255 and
truncate to an integer (numpy uint8 of a nonnegative float truncates,
which on a nonnegative rational is the floor). -/
def rgb (self : Vector3) : List ℕ :=
  let r := max 0 (min 1 self.x)
  let g := max 0 (min 1 self.y)
  let b := max 0 (min 1 self.z)
  [(⌊r * 255⌋).toNat, (⌊g * 255⌋).toNat, (⌊b * 255⌋).toNat]

end Vector3

/-- `class Ray` (lines 95-143): origin and direction. -/
structure Ray where
  origin : Vector3
  direction : Vector3
deriving DecidableEq

/-- `Ray.point` (lines 100-101): origin + direction·t. -/
def Ray.point (self : Ray) (t : ℚ) : Vector3 :=
  self.origin + self.direction.smul t

/-- `class Material` (lines 146-165).  The constructor's
`ambient_color if ambient_color else diffuse_color` defaulting is applied
by `Material.make` below; no claim depends on the ambient color. -/
structure Material where
  diffuse_color : Vector3
  specular_color : Vector3
  ambient_color : Vector3
  shininess : ℕ
  reflectivity : ℚ
  transparency : ℚ
  refractive_index : ℚ
  emission_color : Vector3
deriving DecidableEq

/-- `class Light` (lines 168-172): position, color, and an intensity
field that is stored but never read by the shading code. -/
structure Light where
  position : Vector3
  color : Vector3
  intensity : ℚ
deriving DecidableEq

/-- `class Sphere` (lines 175-203): center, radius, material. -/
structure Sphere where
  center : Vector3
  radius : ℚ
  material : Material
deriving DecidableEq

/-- The discriminant b²−4ac computed by `Sphere.intersect`
(lines 182-187), with a = dir·dir, b = 2·(origin−center)·dir,
c = (origin−center)·(origin−center) − radius². -/
def Sphere.disc (self : Sphere) (ray : Ray) : ℚ :=
  let oc := ray.origin - self.center
  let a := ray.direction.dot ray.direction
  let b := 2 * oc.dot ray.direction
  let c := oc.dot oc - self.radius ^ 2
  b ^ 2 - 4 * a * c

/-- The quadratic a·t² + b·t + c that `Sphere.intersect` solves
(lines 184-186), evaluated at t. -/
def Sphere.quadEval (self : Sphere) (ray : Ray) (t : ℚ) : ℚ :=
  let oc := ray.origin - self.center
  (ray.direction.dot ray.direction) * t ^ 2
    + (2 * oc.dot ray.direction) * t
    + (oc.dot oc - self.radius ^ 2)

/-- `Sphere.intersect` (lines 181-199): solve a·t²+b·t+c = 0; negative
discriminant means no hit; otherwise return the smaller root t1 when
t1 > 0.001, else the larger root t2 when t2 > 0.001, else no hit.  The
two root computations divide by 2·a with no guard, so a ray with a zero
direction (a = 0, and then d = 0 as well, so the negative-discriminant
return is not taken) raises a division-by-zero error. -/
def Sphere.intersect (sq : ℚ → ℚ) (self : Sphere) (ray : Ray) :
    Except Err (Option ℚ) := do
  let oc := ray.origin - self.center
  let a := ray.direction.dot ray.direction
  let b := 2 * oc.dot ray.direction
  let c := oc.dot oc - self.radius ^ 2
  let d := b ^ 2 - 4 * a * c
  if d < 0 then
    .ok none
  else do
    let s := sq d
    let t1 ← qdiv (-b - s) (2 * a)
    let t2 ← qdiv (-b + s) (2 * a)
    if t1 > 1/1000 then
      .ok (some t1)
    else if t2 > 1/1000 then
      .ok (some t2)
    else
      .ok none

/-- `Sphere.normal_vector` (lines 201-203): (point − center) normalized. -/
def Sphere.normal_vector (sq : ℚ → ℚ) (self : Sphere) (point : Vector3) :
    Vector3 :=
  (point - self.center).normalize sq

/-- `class Scene` (lines 239-275): lights and spheres. -/
structure Scene where
  lighting : List Light
  objects : List Sphere
deriving DecidableEq

/-- The body of the `for obj in self.objects` loop of `Scene.hit`
(lines 266-270), recursing over the remaining objects.  The accumulator
`none` stands for the initial `closest_t = float('inf')`,
`closest_obj = None` state, and `t < float('inf')` holds for every t. -/
def Scene.hitLoop (sq : ℚ → ℚ) (ray : Ray) :
    List Sphere → Option (ℚ × Sphere) → Except Err (Option (ℚ × Sphere))
  | [], acc => .ok acc
  | obj :: rest, acc => do
      let t? ← obj.intersect sq ray
      match t?, acc with
      | some t, none => Scene.hitLoop sq ray rest (some (t, obj))
      | some t, some (ct, co) =>
          if t < ct then Scene.hitLoop sq ray rest (some (t, obj))
          else Scene.hitLoop sq ray rest (some (ct, co))
      | none, acc => Scene.hitLoop sq ray rest acc

/-- `Scene.hit` (lines 262-275): linear scan for the smallest valid t;
returns (ray evaluated at the winning t, winning sphere), or the
(None, None) sentinel — modelled as `none` — when nothing is hit. -/
def Scene.hit (sq : ℚ → ℚ) (self : Scene) (ray : Ray) :
    Except Err (Option (Vector3 × Sphere)) := do
  let acc ← Scene.hitLoop sq ray self.objects none
  match acc with
  | some (ct, co) => .ok (some (ray.point ct, co))
  | none => .ok none

/-- The background ("sky") color of `Ray.color` (lines 106-109): blend
white and sky-blue by alpha = 0.5·(direction.y + 1). -/
def bgColor (ray : Ray) : Vector3 :=
  let alpha := 1/2 * (ray.direction.y + 1)
  (Vector3.mk 1 1 1).smul (1 - alpha) + (Vector3.mk (1/2) (7/10) 1).smul alpha

/-- The body of the `for light in scene.lighting` loop of `Ray.color`
(lines 114-132), recursing over the remaining lights with the
accumulated color.  The commented-out shadow check of the source is
absent: every light contributes.  The source wraps the accumulation
`color = color + diffuse + specular` in try/except TypeError; with all
operands Vector3 values, as here, that addition is total, so the typed
loop never takes the except branch (the dynamically-typed loop
`lightLoopDyn` below models the except path). -/
def localColorLoop (sq : ℚ → ℚ) (m : Material)
    (normal view_dir hit_point : Vector3) :
    List Light → Vector3 → Vector3
  | [], color => color
  | light :: rest, color =>
      let light_dir := (light.position - hit_point).normalize sq
      let i_diff := max (normal.dot light_dir) 0
      let diffuse := (m.diffuse_color.hmul light.color).smul i_diff
      let reflect_dir := (-view_dir).reflect normal
      let i_spec := (max (reflect_dir.dot view_dir) 0) ^ m.shininess
      let specular := (m.specular_color.hmul light.color).smul i_spec
      localColorLoop sq m normal view_dir hit_point rest
        (color + diffuse + specular)

/-- The local (diffuse + specular) color accumulated by the shading loop
of `Ray.color`, starting from Vector3(0, 0, 0) (line 112). -/
def localColor (sq : ℚ → ℚ) (m : Material)
    (normal view_dir hit_point : Vector3) (lights : List Light) : Vector3 :=
  localColorLoop sq m normal view_dir hit_point lights ⟨0, 0, 0⟩

/-- The sum of a list of color vectors (for stating that the shading
loop accumulates exactly the per-light contributions). -/
def sumColors (l : List Vector3) : Vector3 :=
  l.foldr (fun v acc => v + acc) ⟨0, 0, 0⟩

/-- `Ray.mix_color` (lines 141-143): (1−t)·a + t·b. -/
def Ray.mix_color (a b : Vector3) (t : ℚ) : Vector3 :=
  a.smul (1 - t) + b.smul t

/-- `Ray.color` (lines 103-139), the recursive shader.  The scene is
queried first; a miss or an exhausted depth yields the background color.
Otherwise the per-light loop accumulates the local color, and a
reflective material spawns a reflection ray from
hit_point + normal·0.01 and recurses.  The recursive call on line 137,
`ref_ray.color(scene, depth + 1)`, passes no max_depth, so Python
substitutes the default value 3 — the recursion does *not* reuse the
caller's max_depth; the embedding reproduces that literal 3.
Termination: the recursive call strictly decreases max(max_depth, 3) −
depth. -/
def Ray.color (sq : ℚ → ℚ) (self : Ray) (scene : Scene)
    (depth : ℕ) (max_depth : ℕ) : Except Err Vector3 :=
  match Scene.hit sq scene self with
  | .error e => .error e
  | .ok none => .ok (bgColor self)
  | .ok (some (hit_point, obj)) =>
    if _h : depth ≥ max_depth then .ok (bgColor self)
    else
      let epsilon : ℚ := 1/100
      let normal := obj.normal_vector sq hit_point
      let view_dir := -(self.direction.normalize sq)
      let color := localColor sq obj.material normal view_dir hit_point
        scene.lighting
      if 0 < obj.material.reflectivity then
        let reflect_dir := self.direction.reflect normal
        let ref_ray : Ray := ⟨hit_point + normal.smul epsilon, reflect_dir⟩
        match Ray.color sq ref_ray scene (depth + 1) 3 with
        | .error e => .error e
        | .ok ref_color =>
            .ok (Ray.mix_color color ref_color obj.material.reflectivity)
      else .ok color
termination_by max max_depth 3 - depth
decreasing_by omega

/-- Instrumentation of `Ray.color`: the list of `depth` arguments at
which the shader evaluates its local-illumination loop (i.e. reaches
line 110 rather than returning the background color or an error).  It
follows exactly the recursion of `Ray.color`, including the literal
max_depth 3 of the recursive call on line 137. -/
def shadeDepths (sq : ℚ → ℚ) (self : Ray) (scene : Scene)
    (depth : ℕ) (max_depth : ℕ) : List ℕ :=
  match Scene.hit sq scene self with
  | .error _ => []
  | .ok none => []
  | .ok (some (hit_point, obj)) =>
    if _h : depth ≥ max_depth then []
    else
      let epsilon : ℚ := 1/100
      let normal := obj.normal_vector sq hit_point
      if 0 < obj.material.reflectivity then
        let reflect_dir := self.direction.reflect normal
        let ref_ray : Ray := ⟨hit_point + normal.smul epsilon, reflect_dir⟩
        depth :: shadeDepths sq ref_ray scene (depth + 1) 3
      else [depth]
termination_by max max_depth 3 - depth
decreasing_by omega

/-- `class Camera` (lines 206-236).  Only the fields that `get_ray`
reads are modelled; the constructor (which builds the orthonormal basis
and the tan-of-fov screen size) is consulted by no claim. -/
structure Camera where
  position : Vector3
  forward : Vector3
  right : Vector3
  up : Vector3
  screen_width : ℚ
  screen_height : ℚ
  screen_distance : ℚ
deriving DecidableEq

/-- `Camera.get_ray` (lines 228-236): map normalized screen coordinates
to a primary ray through the screen plane. -/
def Camera.get_ray (sq : ℚ → ℚ) (self : Camera) (x y : ℚ) : Ray :=
  let screen_x := (x * 2 - 1) * self.screen_width / 2
  let screen_y := (1 - y * 2) * self.screen_height / 2
  let ray_direction :=
    (self.right.smul screen_x + self.up.smul screen_y
      + self.forward.smul self.screen_distance).normalize sq
  ⟨self.position, ray_direction⟩

/-- One pixel of `render_scene` (lines 323-338): sum the shader color of
the camera ray over a 2×2 sub-sample grid (`sample = 2`, sy outer loop,
sx inner loop), divide the total by sample² with the in-place vector
division of line 337, and convert to 8-bit channels.  The shader is
invoked as `ray.color(scene, 2)` (line 335), i.e. depth 2 with the
default max_depth 3. -/
def renderPixel (sq : ℚ → ℚ) (camera : Camera) (scene : Scene)
    (width height x y : ℕ) : Except Err (List ℕ) := do
  let sample : ℕ := 2
  let total ← (List.range sample).foldlM (fun (total : Vector3) (sy : ℕ) =>
    (List.range sample).foldlM (fun (total : Vector3) (sx : ℕ) => do
      let offset_x : ℚ := ((sx : ℚ) + 1/2) / (sample : ℚ)
      let offset_y : ℚ := ((sy : ℚ) + 1/2) / (sample : ℚ)
      let u : ℚ := ((x : ℚ) + offset_x) / (width : ℚ)
      let v : ℚ := ((y : ℚ) + offset_y) / (height : ℚ)
      let ray := camera.get_ray sq u v
      let color ← Ray.color sq ray scene 2 3
      .ok (total + color)) total) (Vector3.mk 0 0 0)
  let avg ← total.itruediv ((sample : ℚ) ^ 2)
  .ok avg.rgb

/-- The jittered normalized screen coordinate of sub-sample s inside
pixel index pix along an axis of the given size (width or height):
(pix + (s + 0.5)/2) / size, per lines 329-332 with sample = 2. -/
def sampleCoord (size pix s : ℕ) : ℚ :=
  ((pix : ℚ) + ((s : ℚ) + 1/2) / ((2 : ℕ) : ℚ)) / (size : ℚ)

/-- One row `y` of the output buffer: the `for x in range(width)` loop of
`render_scene` (line 323), building the row left to right. -/
def renderRow (sq : ℚ → ℚ) (camera : Camera) (scene : Scene)
    (width height y : ℕ) : List ℕ → Except Err (List (List ℕ))
  | [] => .ok []
  | x :: xs => do
      let px ← renderPixel sq camera scene width height x y
      let rest ← renderRow sq camera scene width height y xs
      .ok (px :: rest)

/-- The rows of the output buffer: the `for y in range(height)` loop of
`render_scene` (line 319). -/
def renderRows (sq : ℚ → ℚ) (camera : Camera) (scene : Scene)
    (width height : ℕ) : List ℕ → Except Err (List (List (List ℕ)))
  | [] => .ok []
  | y :: ys => do
      let row ← renderRow sq camera scene width height y (List.range width)
      let rest ← renderRows sq camera scene width height ys
      .ok (row :: rest)

/-- The pixel loop of `render_scene` (lines 317-340) for a given camera,
scene and resolution: `image_buffer[y][x]` of the numpy buffer (row 0 at
the top, row-major) is entry x of row y of this list of rows. -/
def renderGrid (sq : ℚ → ℚ) (camera : Camera) (scene : Scene)
    (width height : ℕ) : Except Err (List (List (List ℕ))) :=
  renderRows sq camera scene width height (List.range height)

/-!
Dynamically-typed model of the shading loop, for the error-handling
claim about the try/except around `color = color + diffuse + specular`
(lines 129-132).  Python values flowing through that loop are not
statically Vector3: a material or light color field can hold any object.
`Value` models the two kinds the arithmetic can produce — a Vector3 or a
numeric scalar.
-/

/-- A dynamically-typed Python value reaching the shading arithmetic:
either a Vector3 instance or an int/float scalar. -/
inductive Value where
  | vec (v : Vector3)
  | num (q : ℚ)
deriving DecidableEq

/-- Python `a * b` for shading values, per `Vector3.__mul__` (lines
28-33) and `__rmul__` (line 35): vec·vec is Hadamard, vec·num and
num·vec (via `__rmul__`) are scalar products, num·num is numeric.  On
these two kinds the dispatch always succeeds. -/
def mulVal : Value → Value → Value
  | .vec a, .vec b => .vec (a.hmul b)
  | .vec a, .num s => .vec (a.smul s)
  | .num s, .vec b => .vec (b.smul s)
  | .num a, .num b => .num (a * b)

/-- Python `a + b` for shading values.  vec+vec runs `Vector3.__add__`
(lines 13-17).  vec+num runs `__add__` too, which reads `other.x` off a
number and so raises AttributeError.  num+vec raises TypeError: the
number's `__add__` returns NotImplemented and Vector3 defines no
`__radd__`.  num+num is numeric addition. -/
def addVal : Value → Value → Except Err Value
  | .vec a, .vec b => .ok (.vec (a + b))
  | .vec _, .num _ => .error .attributeError
  | .num _, .vec _ => .error .typeMismatch
  | .num a, .num b => .ok (.num (a + b))

/-- A Material whose color fields are dynamically typed, as Python
permits. -/
structure DMaterial where
  diffuse_color : Value
  specular_color : Value
  shininess : ℕ
deriving DecidableEq

/-- A Light whose color field is dynamically typed. -/
structure DLight where
  position : Vector3
  color : Value
deriving DecidableEq

/-- The diffuse contribution of one light (lines 123-124) at the
dynamic level. -/
def diffuseVal (sq : ℚ → ℚ) (m : DMaterial) (normal hit_point : Vector3)
    (light : DLight) : Value :=
  let light_dir := (light.position - hit_point).normalize sq
  let i_diff := max (normal.dot light_dir) 0
  mulVal (mulVal m.diffuse_color light.color) (.num i_diff)

/-- The specular contribution of one light (lines 126-128) at the
dynamic level. -/
def specularVal (m : DMaterial) (normal view_dir : Vector3)
    (light : DLight) : Value :=
  let reflect_dir := (-view_dir).reflect normal
  let i_spec := (max (reflect_dir.dot view_dir) 0) ^ m.shininess
  mulVal (mulVal m.specular_color light.color) (.num i_spec)

/-- The statement guarded by try (line 130):
`color + diffuse + specular`, evaluated left to right. -/
def sumAttempt (color diffuse specular : Value) : Except Err Value :=
  match addVal color diffuse with
  | .ok s => addVal s specular
  | .error e => .error e

/-- The `for light in scene.lighting` loop of `Ray.color`
(lines 114-132) at the dynamic level.  The multiplications that build
`diffuse` and `specular` stand outside the try block; only the summation
is guarded, and only `except TypeError` is caught (the except prints and
leaves `color` unassigned, so the loop continues with the previous
color).  Any other error propagates. -/
def lightLoopDyn (sq : ℚ → ℚ) (m : DMaterial)
    (normal view_dir hit_point : Vector3) :
    List DLight → Value → Except Err Value
  | [], color => .ok color
  | light :: rest, color =>
      let diffuse := diffuseVal sq m normal hit_point light
      let specular := specularVal m normal view_dir light
      match sumAttempt color diffuse specular with
      | .ok c => lightLoopDyn sq m normal view_dir hit_point rest c
      | .error .typeMismatch =>
          lightLoopDyn sq m normal view_dir hit_point rest color
      | .error e => .error e

/-!
State-aware table of the operations `class Vector3` exposes, for the
immutability claim.  Each entry runs one method and reports, besides the
method's result, the final states of the receiver (`self`) and of a
vector operand (`other`) — Python objects are mutable, so a method could
in principle assign to their fields.  Operands a method does not take
are simply returned unchanged.
-/

/-- The result of one Vector3 method: a vector, a number, the rgb list,
or a raised error. -/
inductive OpOut where
  | vecOut (v : Vector3)
  | numOut (q : ℚ)
  | listOut (l : List ℕ)
  | errOut (e : Err)
deriving DecidableEq

/-- The operations `class Vector3` exposes (lines 13-86): add, sub,
negate, multiply by a vector, multiply by a scalar, the two divisions
`__truediv__` and `__itruediv__`, dot, cross, length, normalize,
reflect, rgb. -/
inductive VecOp where
  | add
  | sub
  | negOp
  | mulVec
  | mulScalar
  | truedivOp
  | itruedivOp
  | dotOp
  | crossOp
  | lengthOp
  | normalizeOp
  | reflectOp
  | rgbOp
deriving DecidableEq

/-- Run one Vector3 method on receiver `self`, vector operand `other`
and scalar operand `scalar` (whichever of the two the method takes);
the result is (output, final state of self, final state of other).
Every method except `__itruediv__` builds fresh values and leaves its
operands' fields untouched; `__itruediv__` (lines 42-48) assigns
`self.x /= scalar` and so forth, so the final state of `self` is the
quotient vector (unless the zero-divisor check raised first, line 43,
before any field assignment). -/
def applyOp (sq : ℚ → ℚ) :
    VecOp → Vector3 → Vector3 → ℚ → OpOut × Vector3 × Vector3
  | .add, self, other, _ => (.vecOut (self + other), self, other)
  | .sub, self, other, _ => (.vecOut (self - other), self, other)
  | .negOp, self, other, _ => (.vecOut (-self), self, other)
  | .mulVec, self, other, _ => (.vecOut (self.hmul other), self, other)
  | .mulScalar, self, other, scalar =>
      (.vecOut (self.smul scalar), self, other)
  | .truedivOp, self, other, scalar =>
      match self.truediv scalar with
      | .ok v => (.vecOut v, self, other)
      | .error e => (.errOut e, self, other)
  | .itruedivOp, self, other, scalar =>
      match self.itruediv scalar with
      | .ok v => (.vecOut v, v, other)
      | .error e => (.errOut e, self, other)
  | .dotOp, self, other, _ => (.numOut (self.dot other), self, other)
  | .crossOp, self, other, _ => (.vecOut (self.cross other), self, other)
  | .lengthOp, self, other, _ => (.numOut (self.length sq), self, other)
  | .normalizeOp, self, other, _ =>
      (.vecOut (self.normalize sq), self, other)
  | .reflectOp, self, other, _ =>
      (.vecOut (self.reflect other), self, other)
  | .rgbOp, self, other, _ => (.listOut self.rgb, self, other)

/-!
Concrete scene data used by witnesses and counterexamples.  The source
evaluates math.sqrt on floats; the witness square root `sqrtC` gives the
exact answers for the only two radicands (1 and 4) the concrete scenes
below produce, so every hypothesis about it is checkable by evaluation.
-/

/-- A concrete square-root table sufficient for the witness scenes: the
discriminants and squared lengths they produce are all 1 or 4. -/
def sqrtC : ℚ → ℚ :=
  fun q => if q = 4 then 2 else if q = 1 then 1 else 0

/-- A red, non-reflective material (reflectivity 0). -/
def matPlain : Material :=
  ⟨⟨1, 0, 0⟩, ⟨1, 1, 1⟩, ⟨1, 0, 0⟩, 64, 0, 0, 1, ⟨0, 0, 0⟩⟩

/-- A mirror-like material (reflectivity 9/10). -/
def matMirror : Material :=
  ⟨⟨3/5, 3/5, 3/5⟩, ⟨1, 1, 1⟩, ⟨3/5, 3/5, 3/5⟩, 256, 9/10, 0, 1, ⟨0, 0, 0⟩⟩

/-- A ray from the origin along +z. -/
def rayZ : Ray := ⟨⟨0, 0, 0⟩, ⟨0, 0, 1⟩⟩

/-- A ray whose direction is the zero vector. -/
def rayNull : Ray := ⟨⟨0, 0, 0⟩, ⟨0, 0, 0⟩⟩

/-- The first reflection ray the mirror scene produces from `rayZ`:
origin (0,0,1.01), direction (0,0,−1). -/
def rayR1 : Ray := ⟨⟨0, 0, 101/100⟩, ⟨0, 0, -1⟩⟩

/-- The second reflection ray of the mirror scene: origin (0,0,1.01),
direction (0,0,1), leaving the sphere for good. -/
def rayR2 : Ray := ⟨⟨0, 0, 101/100⟩, ⟨0, 0, 1⟩⟩

/-- A unit sphere at (0,0,5): `rayZ` meets it at t = 4. -/
def sphereFar : Sphere := ⟨⟨0, 0, 5⟩, 1, matPlain⟩

/-- A unit sphere at (0,0,2): `rayZ` meets it at t = 1. -/
def sphereNear : Sphere := ⟨⟨0, 0, 2⟩, 1, matPlain⟩

/-- A mirror unit sphere at the origin: `rayZ` starts inside it. -/
def sphereMirror : Sphere := ⟨⟨0, 0, 0⟩, 1, matMirror⟩

/-- A scene with no lights and the near sphere only. -/
def scenePlain : Scene := ⟨[], [sphereNear]⟩

/-- A scene with no lights and the mirror sphere only. -/
def sceneMirror : Scene := ⟨[], [sphereMirror]⟩

/-- The empty scene. -/
def sceneEmpty : Scene := ⟨[], []⟩

/-- A degenerate camera looking along +z whose screen has zero extent:
every primary ray is the normalized forward axis. -/
def camC : Camera := ⟨⟨0, 0, 0⟩, ⟨0, 0, 1⟩, ⟨1, 0, 0⟩, ⟨0, 1, 0⟩, 0, 0, 1⟩

/-- A dynamically-typed material whose diffuse color is a Vector3 but
whose specular color is a bare number. -/
def dmatC : DMaterial := ⟨.vec ⟨1, 0, 0⟩, .num 1, 1⟩

/-- A dynamically-typed light at (0,0,2) whose color field holds a bare
number. -/
def dlightC : DLight := ⟨⟨0, 0, 2⟩, .num 1⟩

/-!
Theorems.  General lemmas about the embedding come first; the numbered
claim theorems and their witnesses follow.
-/

@[simp] theorem ok_bind {α β : Type} (a : α) (f : α → Except Err β) :
    (Except.ok a >>= f) = f a := rfl

@[simp] theorem error_bind {α β : Type} (e : Err) (f : α → Except Err β) :
    ((Except.error e : Except Err α) >>= f) = Except.error e := rfl

@[simp] theorem Vector3.add_def (a b : Vector3) :
    a + b = ⟨a.x + b.x, a.y + b.y, a.z + b.z⟩ := rfl

@[simp] theorem Vector3.neg_def (a : Vector3) :
    -a = ⟨-a.x, -a.y, -a.z⟩ := rfl

@[simp] theorem Vector3.sub_def (a b : Vector3) :
    a - b = ⟨a.x - b.x, a.y - b.y, a.z - b.z⟩ := rfl

theorem Vector3.add_assoc (a b c : Vector3) : a + b + c = a + (b + c) := by
  simp [Vector3.add_def]
  refine ⟨by ring, by ring, by ring⟩

@[simp] theorem Vector3.add_zero_right (a : Vector3) : a + ⟨0, 0, 0⟩ = a := by
  simp

@[simp] theorem Vector3.add_zero_left (a : Vector3) :
    (⟨0, 0, 0⟩ : Vector3) + a = a := by
  simp

/-- The dot product of a nonzero vector with itself is positive. -/
theorem Vector3.dot_self_pos (v : Vector3) (h : v ≠ ⟨0, 0, 0⟩) :
    0 < v.dot v := by
  rcases v with ⟨x, y, z⟩
  rcases eq_or_lt_of_le
      (by nlinarith [sq_nonneg x, sq_nonneg y, sq_nonneg z] :
        (0:ℚ) ≤ x * x + y * y + z * z) with h0 | h0
  · exfalso
    apply h
    have hx : x = 0 := by nlinarith [sq_nonneg x, sq_nonneg y, sq_nonneg z]
    have hy : y = 0 := by nlinarith [sq_nonneg x, sq_nonneg y, sq_nonneg z]
    have hz : z = 0 := by nlinarith [sq_nonneg x, sq_nonneg y, sq_nonneg z]
    simp [hx, hy, hz]
  · simpa [Vector3.dot] using h0

/-- A zero direction has a zero dot product with itself. -/
theorem Vector3.dot_self_zero :
    (Vector3.mk 0 0 0).dot ⟨0, 0, 0⟩ = 0 := by
  simp [Vector3.dot]

/-- `Sphere.intersect` written without the do-notation sugar, in terms
of the discriminant. -/
theorem Sphere.intersect_eq (sq : ℚ → ℚ) (s : Sphere) (ray : Ray) :
    s.intersect sq ray =
      (if Sphere.disc s ray < 0 then Except.ok none
       else
         qdiv (-(2 * (ray.origin - s.center).dot ray.direction)
            - sq (Sphere.disc s ray))
            (2 * ray.direction.dot ray.direction) >>= fun t1 =>
         qdiv (-(2 * (ray.origin - s.center).dot ray.direction)
            + sq (Sphere.disc s ray))
            (2 * ray.direction.dot ray.direction) >>= fun t2 =>
         if t1 > 1/1000 then Except.ok (some t1)
         else if t2 > 1/1000 then Except.ok (some t2)
         else Except.ok none) := rfl

/-- If (2·A·t + B)² equals the discriminant B²−4·A·C, then t is a root
of A·t² + B·t + C. -/
theorem quad_root_aux (A B C S t : ℚ) (hA : A ≠ 0)
    (hS : S * S = B ^ 2 - 4 * A * C) (ht : (t * (2 * A) + B) ^ 2 = S * S) :
    A * t ^ 2 + B * t + C = 0 := by
  have h0 : (4 * A) * (A * t ^ 2 + B * t + C) = 0 := by
    have he : (4 * A) * (A * t ^ 2 + B * t + C)
        = (t * (2 * A) + B) ^ 2 - B ^ 2 + 4 * A * C := by ring
    rw [he, ht, hS]
    ring
  rcases mul_eq_zero.mp h0 with h | h
  · exact absurd h (by simpa using hA)
  · exact h

/-- Claim C1: for every sphere and ray, `Sphere.intersect` returns the
no-hit sentinel when the discriminant b²−4ac is negative; otherwise
(given a nonzero ray direction, so that the quadratic is genuine, and a
square root faithful on the discriminant) it returns the smaller root t1
of the quadratic when t1 > 0.001, else the larger root t2 when
t2 > 0.001, else the sentinel; and every returned t satisfies
t > 0.001. -/
theorem C1_intersect_root_selection (sq : ℚ → ℚ) (s : Sphere) (ray : Ray) :
    (Sphere.disc s ray < 0 → s.intersect sq ray = .ok none) ∧
    (∀ t : ℚ, s.intersect sq ray = .ok (some t) → 1/1000 < t) ∧
    (0 ≤ Sphere.disc s ray → ray.direction ≠ ⟨0, 0, 0⟩ →
      sq (Sphere.disc s ray) * sq (Sphere.disc s ray) = Sphere.disc s ray →
      0 ≤ sq (Sphere.disc s ray) →
      ∃ t1 t2 : ℚ,
        Sphere.quadEval s ray t1 = 0 ∧ Sphere.quadEval s ray t2 = 0 ∧
        t1 ≤ t2 ∧
        s.intersect sq ray =
          .ok (if t1 > 1/1000 then some t1
               else if t2 > 1/1000 then some t2 else none)) := by
  have hi := Sphere.intersect_eq sq s ray
  refine ⟨?_, ?_, ?_⟩
  · intro hneg
    rw [hi, if_pos hneg]
  · intro t hok
    rw [hi] at hok
    by_cases hneg : Sphere.disc s ray < 0
    · rw [if_pos hneg] at hok
      exact absurd (Except.ok.inj hok) (by simp)
    · rw [if_neg hneg] at hok
      rcases h1 : qdiv (-(2 * (ray.origin - s.center).dot ray.direction)
          - sq (Sphere.disc s ray))
          (2 * ray.direction.dot ray.direction) with e | t1v
      · rw [h1] at hok
        simp at hok
      rcases h2 : qdiv (-(2 * (ray.origin - s.center).dot ray.direction)
          + sq (Sphere.disc s ray))
          (2 * ray.direction.dot ray.direction) with e | t2v
      · rw [h1, h2] at hok
        simp at hok
      rw [h1, h2] at hok
      simp only [ok_bind] at hok
      by_cases ha : t1v > 1/1000
      · rw [if_pos ha] at hok
        obtain rfl : t1v = t := by simpa using Except.ok.inj hok
        exact ha
      · rw [if_neg ha] at hok
        by_cases hb : t2v > 1/1000
        · rw [if_pos hb] at hok
          obtain rfl : t2v = t := by simpa using Except.ok.inj hok
          exact hb
        · rw [if_neg hb] at hok
          exact absurd (Except.ok.inj hok) (by simp)
  · intro hd0 hdir hsq hsq0
    have hA : 0 < ray.direction.dot ray.direction :=
      Vector3.dot_self_pos ray.direction hdir
    have h2Apos : (0 : ℚ) < 2 * ray.direction.dot ray.direction := by
      linarith
    have h2A : (2 : ℚ) * ray.direction.dot ray.direction ≠ 0 :=
      ne_of_gt h2Apos
    have hs' : sq (Sphere.disc s ray) * sq (Sphere.disc s ray) =
        (2 * (ray.origin - s.center).dot ray.direction) ^ 2
          - 4 * (ray.direction.dot ray.direction)
            * ((ray.origin - s.center).dot (ray.origin - s.center)
                - s.radius ^ 2) := hsq
    refine ⟨(-(2 * (ray.origin - s.center).dot ray.direction)
        - sq (Sphere.disc s ray)) / (2 * ray.direction.dot ray.direction),
      (-(2 * (ray.origin - s.center).dot ray.direction)
        + sq (Sphere.disc s ray)) / (2 * ray.direction.dot ray.direction),
      ?_, ?_, ?_, ?_⟩
    · show Sphere.quadEval s ray _ = 0
      have e1 : (-(2 * (ray.origin - s.center).dot ray.direction)
            - sq (Sphere.disc s ray)) / (2 * ray.direction.dot ray.direction)
            * (2 * ray.direction.dot ray.direction)
          = -(2 * (ray.origin - s.center).dot ray.direction)
            - sq (Sphere.disc s ray) := div_mul_cancel₀ _ h2A
      exact quad_root_aux _ _ _ (sq (Sphere.disc s ray)) _
        (ne_of_gt hA) hs' (by rw [e1]; ring)
    · show Sphere.quadEval s ray _ = 0
      have e2 : (-(2 * (ray.origin - s.center).dot ray.direction)
            + sq (Sphere.disc s ray)) / (2 * ray.direction.dot ray.direction)
            * (2 * ray.direction.dot ray.direction)
          = -(2 * (ray.origin - s.center).dot ray.direction)
            + sq (Sphere.disc s ray) := div_mul_cancel₀ _ h2A
      exact quad_root_aux _ _ _ (sq (Sphere.disc s ray)) _
        (ne_of_gt hA) hs' (by rw [e2]; ring)
    · exact (div_le_div_iff_of_pos_right h2Apos).mpr (by linarith)
    · rw [hi, if_neg (not_lt.mpr hd0)]
      rw [qdiv, if_neg h2A, qdiv, if_neg h2A]
      simp only [ok_bind]
      split_ifs <;> rfl

/-- Witness for C1 at a concrete sphere and ray: the unit sphere at
(0,0,5) and the +z ray from the origin, whose discriminant is 4, with
roots 4 and 6; the accepted t is 4 > 0.001. -/
theorem C1_witness :
    (0 ≤ Sphere.disc sphereFar rayZ ∧
      rayZ.direction ≠ ⟨0, 0, 0⟩ ∧
      sqrtC (Sphere.disc sphereFar rayZ) * sqrtC (Sphere.disc sphereFar rayZ)
        = Sphere.disc sphereFar rayZ ∧
      0 ≤ sqrtC (Sphere.disc sphereFar rayZ)) ∧
    (∃ t1 t2 : ℚ,
      Sphere.quadEval sphereFar rayZ t1 = 0 ∧
      Sphere.quadEval sphereFar rayZ t2 = 0 ∧
      t1 ≤ t2 ∧
      Sphere.intersect sqrtC sphereFar rayZ =
        .ok (if t1 > 1/1000 then some t1
             else if t2 > 1/1000 then some t2 else none)) ∧
    Sphere.intersect sqrtC sphereFar rayZ = .ok (some 4) ∧
    (1 : ℚ)/1000 < 4 := by
  have hd : Sphere.disc sphereFar rayZ = 4 := by
    norm_num [Sphere.disc, Vector3.dot, sphereFar, rayZ, matPlain]
  have h1 : (0:ℚ) ≤ Sphere.disc sphereFar rayZ := by rw [hd]; norm_num
  have h2 : rayZ.direction ≠ ⟨0, 0, 0⟩ := by
    simp [rayZ]
  have h3 : sqrtC (Sphere.disc sphereFar rayZ)
      * sqrtC (Sphere.disc sphereFar rayZ) = Sphere.disc sphereFar rayZ := by
    rw [hd]; norm_num [sqrtC]
  have h4 : 0 ≤ sqrtC (Sphere.disc sphereFar rayZ) := by
    rw [hd]; norm_num [sqrtC]
  have hval : Sphere.intersect sqrtC sphereFar rayZ = .ok (some 4) := by
    norm_num [Sphere.intersect, qdiv, Vector3.dot, sphereFar, rayZ,
      matPlain, sqrtC]
  exact ⟨⟨h1, h2, h3, h4⟩,
    (C1_intersect_root_selection sqrtC sphereFar rayZ).2.2 h1 h2 h3 h4,
    hval,
    (C1_intersect_root_selection sqrtC sphereFar rayZ).2.1 4 hval⟩

/-- Claim C10: `Sphere.intersect` divides by 2·a with a = dir·dir and
no zero guard.  For a nonzero direction a > 0 and both divisions are
well-defined, so the call completes with an ordinary result; for the
zero direction the discriminant evaluates to 0 — so the
negative-discriminant early return is not taken — and the root
computation raises division-by-zero instead of returning the sentinel. -/
theorem C10_zero_direction_division (sq : ℚ → ℚ) (s : Sphere) (ray : Ray) :
    (ray.direction ≠ ⟨0, 0, 0⟩ →
      0 < ray.direction.dot ray.direction ∧
      ∃ r : Option ℚ, s.intersect sq ray = .ok r) ∧
    (ray.direction = ⟨0, 0, 0⟩ →
      Sphere.disc s ray = 0 ∧
      s.intersect sq ray = .error .divisionByZero) := by
  constructor
  · intro hdir
    have hA := Vector3.dot_self_pos ray.direction hdir
    have h2A : (2 : ℚ) * ray.direction.dot ray.direction ≠ 0 :=
      ne_of_gt (by linarith)
    refine ⟨hA, ?_⟩
    rw [Sphere.intersect_eq]
    by_cases hneg : Sphere.disc s ray < 0
    · exact ⟨none, by rw [if_pos hneg]⟩
    · rw [if_neg hneg, qdiv, if_neg h2A, qdiv, if_neg h2A]
      simp only [ok_bind]
      split_ifs
      exacts [⟨_, rfl⟩, ⟨_, rfl⟩, ⟨none, rfl⟩]
  · intro hdir
    have hz : ∀ v : Vector3, v.dot ⟨0, 0, 0⟩ = 0 := by
      intro v
      simp [Vector3.dot]
    have hd0 : Sphere.disc s ray = 0 := by
      unfold Sphere.disc
      rw [hdir]
      simp [hz]
    refine ⟨hd0, ?_⟩
    rw [Sphere.intersect_eq, hd0, hdir]
    simp [qdiv, hz]

/-- Witness for C10: the nonzero-direction branch at the +z ray against
the far sphere, and the zero-direction branch at the null ray. -/
theorem C10_witness :
    (rayZ.direction ≠ ⟨0, 0, 0⟩ ∧
      (0 < rayZ.direction.dot rayZ.direction ∧
        ∃ r : Option ℚ, sphereFar.intersect sqrtC rayZ = .ok r)) ∧
    (rayNull.direction = ⟨0, 0, 0⟩ ∧
      (Sphere.disc sphereFar rayNull = 0 ∧
        sphereFar.intersect sqrtC rayNull = .error .divisionByZero)) := by
  have hz : rayZ.direction ≠ ⟨0, 0, 0⟩ := by simp [rayZ]
  have hn : rayNull.direction = ⟨0, 0, 0⟩ := rfl
  exact ⟨⟨hz, (C10_zero_direction_division sqrtC sphereFar rayZ).1 hz⟩,
    ⟨hn, (C10_zero_direction_division sqrtC sphereFar rayNull).2 hn⟩⟩

/-- Invariant of the `Scene.hit` scanning loop: a successful run that
ends with no candidate saw only misses, and a successful run that ends
with candidate (ct, co) got it from the accumulator or from a scanned
sphere, with ct no larger than any valid t the scan saw and no larger
than the incoming candidate. -/
theorem Scene.hitLoop_spec (sq : ℚ → ℚ) (ray : Ray) :
    ∀ (objs : List Sphere) (acc r : Option (ℚ × Sphere)),
      Scene.hitLoop sq ray objs acc = .ok r →
      ((r = none → acc = none ∧
          ∀ s' ∈ objs, s'.intersect sq ray = .ok none) ∧
       (∀ ct co, r = some (ct, co) →
          (acc = some (ct, co) ∨
            (co ∈ objs ∧ co.intersect sq ray = .ok (some ct))) ∧
          (∀ s' ∈ objs, ∀ t' : ℚ,
            s'.intersect sq ray = .ok (some t') → ct ≤ t') ∧
          (∀ ct0 co0, acc = some (ct0, co0) → ct ≤ ct0))) := by
  intro objs
  induction objs with
  | nil =>
    intro acc r h
    have hacc : acc = r := by
      simpa [Scene.hitLoop] using h
    subst hacc
    refine ⟨fun hr => ⟨hr, by simp⟩, fun ct co hr => ?_⟩
    subst hr
    exact ⟨Or.inl rfl, by simp, fun ct0 co0 h0 => by
      obtain ⟨h1, h2⟩ := Prod.mk.injEq .. ▸ Option.some.inj h0
      exact le_of_eq h1⟩
  | cons o rest ih =>
    intro acc r h
    rcases hint : o.intersect sq ray with e | t?
    · rw [Scene.hitLoop, hint] at h
      simp at h
    · rw [Scene.hitLoop, hint] at h
      simp only [ok_bind] at h
      cases t? with
      | none =>
        have h' : Scene.hitLoop sq ray rest acc = .ok r := h
        obtain ⟨ihn, ihs⟩ := ih acc r h'
        refine ⟨fun hr => ?_, fun ct co hr => ?_⟩
        · obtain ⟨h1, h2⟩ := ihn hr
          refine ⟨h1, fun s' hs' => ?_⟩
          rcases List.mem_cons.mp hs' with rfl | hs'
          · exact hint
          · exact h2 s' hs'
        · obtain ⟨hdisj, hmin, haccb⟩ := ihs ct co hr
          refine ⟨?_, fun s' hs' t' ht' => ?_, haccb⟩
          · rcases hdisj with h1 | ⟨h1, h2⟩
            · exact Or.inl h1
            · exact Or.inr ⟨List.mem_cons_of_mem _ h1, h2⟩
          · rcases List.mem_cons.mp hs' with rfl | hs'
            · rw [hint] at ht'
              exact absurd (Except.ok.inj ht') (by simp)
            · exact hmin s' hs' t' ht'
      | some t =>
        cases acc with
        | none =>
          have h' : Scene.hitLoop sq ray rest (some (t, o)) = .ok r := h
          obtain ⟨ihn, ihs⟩ := ih (some (t, o)) r h'
          refine ⟨fun hr => ?_, fun ct co hr => ?_⟩
          · obtain ⟨h1, -⟩ := ihn hr
            exact absurd h1 (by simp)
          · obtain ⟨hdisj, hmin, haccb⟩ := ihs ct co hr
            have hct : ct ≤ t := haccb t o rfl
            refine ⟨?_, fun s' hs' t' ht' => ?_, fun ct0 co0 h0 => by
              simp at h0⟩
            · rcases hdisj with h1 | ⟨h1, h2⟩
              · obtain ⟨e1, e2⟩ := Prod.mk.injEq .. ▸ Option.some.inj h1
                exact Or.inr ⟨by rw [← e2]; exact List.mem_cons_self o rest,
                  by rw [← e2, hint, e1]⟩
              · exact Or.inr ⟨List.mem_cons_of_mem _ h1, h2⟩
            · rcases List.mem_cons.mp hs' with rfl | hs'
              · rw [hint] at ht'
                obtain h2 : some t = some t' := Except.ok.inj ht'
                exact Option.some.inj h2 ▸ hct
              · exact hmin s' hs' t' ht'
        | some pr =>
          rcases pr with ⟨ct0p, co0p⟩
          have h2 : (if t < ct0p then Scene.hitLoop sq ray rest (some (t, o))
              else Scene.hitLoop sq ray rest (some (ct0p, co0p))) = .ok r := h
          by_cases hlt : t < ct0p
          · rw [if_pos hlt] at h2
            obtain ⟨ihn, ihs⟩ := ih (some (t, o)) r h2
            refine ⟨fun hr => ?_, fun ct co hr => ?_⟩
            · obtain ⟨h1, -⟩ := ihn hr
              exact absurd h1 (by simp)
            · obtain ⟨hdisj, hmin, haccb⟩ := ihs ct co hr
              have hct : ct ≤ t := haccb t o rfl
              refine ⟨?_, fun s' hs' t' ht' => ?_, fun ct0 co0 h0 => ?_⟩
              · rcases hdisj with h1 | ⟨h1, h2⟩
                · obtain ⟨e1, e2⟩ := Prod.mk.injEq .. ▸ Option.some.inj h1
                  exact Or.inr ⟨by rw [← e2]; exact List.mem_cons_self o rest,
                    by rw [← e2, hint, e1]⟩
                · exact Or.inr ⟨List.mem_cons_of_mem _ h1, h2⟩
              · rcases List.mem_cons.mp hs' with rfl | hs'
                · rw [hint] at ht'
                  obtain h2 : some t = some t' := Except.ok.inj ht'
                  exact Option.some.inj h2 ▸ hct
                · exact hmin s' hs' t' ht'
              · obtain ⟨e1, e2⟩ := Prod.mk.injEq .. ▸ Option.some.inj h0
                rw [← e1]
                linarith
          · rw [if_neg hlt] at h2
            obtain ⟨ihn, ihs⟩ := ih (some (ct0p, co0p)) r h2
            refine ⟨fun hr => ?_, fun ct co hr => ?_⟩
            · obtain ⟨h1, -⟩ := ihn hr
              exact absurd h1 (by simp)
            · obtain ⟨hdisj, hmin, haccb⟩ := ihs ct co hr
              have hct : ct ≤ ct0p := haccb ct0p co0p rfl
              have hctt : ct ≤ t := le_trans hct (not_lt.mp hlt)
              refine ⟨?_, fun s' hs' t' ht' => ?_, fun ct0 co0 h0 => ?_⟩
              · rcases hdisj with h1 | ⟨h1, h2⟩
                · exact Or.inl h1
                · exact Or.inr ⟨List.mem_cons_of_mem _ h1, h2⟩
              · rcases List.mem_cons.mp hs' with rfl | hs'
                · rw [hint] at ht'
                  obtain h2 : some t = some t' := Except.ok.inj ht'
                  exact Option.some.inj h2 ▸ hctt
                · exact hmin s' hs' t' ht'
              · obtain ⟨e1, e2⟩ := Prod.mk.injEq .. ▸ Option.some.inj h0
                rw [← e1]
                exact hct

/-- If every sphere of the list reports a clean miss, the scanning loop
returns its accumulator unchanged. -/
theorem Scene.hitLoop_all_none (sq : ℚ → ℚ) (ray : Ray) :
    ∀ (objs : List Sphere) (acc : Option (ℚ × Sphere)),
      (∀ s' ∈ objs, s'.intersect sq ray = .ok none) →
      Scene.hitLoop sq ray objs acc = .ok acc := by
  intro objs
  induction objs with
  | nil => intro acc _; rfl
  | cons o rest ih =>
    intro acc hall
    have ho : o.intersect sq ray = .ok none :=
      hall o (List.mem_cons_self o rest)
    rw [Scene.hitLoop, ho]
    simp only [ok_bind]
    exact ih acc fun s' hs' => hall s' (List.mem_cons_of_mem _ hs')

/-- If every sphere's intersection test completes, the scanning loop of
`Scene.hit` completes, whatever its accumulator. -/
theorem Scene.hitLoop_total (sq : ℚ → ℚ) (ray : Ray) :
    ∀ (objs : List Sphere),
      (∀ s' ∈ objs, ∃ r0 : Option ℚ, s'.intersect sq ray = .ok r0) →
      ∀ acc, ∃ acc', Scene.hitLoop sq ray objs acc = .ok acc' := by
  intro objs
  induction objs with
  | nil =>
    intro _ acc
    exact ⟨acc, rfl⟩
  | cons o rest ih =>
    intro hall acc
    obtain ⟨t?, ht⟩ := hall o (List.mem_cons_self o rest)
    have hrest : ∀ s' ∈ rest, ∃ r0 : Option ℚ,
        s'.intersect sq ray = .ok r0 :=
      fun s' hs' => hall s' (List.mem_cons_of_mem _ hs')
    rw [Scene.hitLoop, ht]
    simp only [ok_bind]
    cases t? with
    | none => exact ih hrest acc
    | some t =>
      cases acc with
      | none => exact ih hrest (some (t, o))
      | some pr =>
        rcases pr with ⟨ct, co⟩
        show ∃ acc', (if t < ct then Scene.hitLoop sq ray rest (some (t, o))
            else Scene.hitLoop sq ray rest (some (ct, co))) = .ok acc'
        by_cases hlt : t < ct
        · rw [if_pos hlt]
          exact ih hrest (some (t, o))
        · rw [if_neg hlt]
          exact ih hrest (some (ct, co))

/-- Claim C2: `Scene.hit` scans all spheres and returns the pair (ray
evaluated at the winning t, winning sphere), the winning t being minimal
among all spheres' valid intersect results; with exactly two intersected
spheres the one with strictly smaller t wins in either storage order;
if no sphere intersects the sentinel pair is returned; a valid
intersection (when the scan completes) excludes the sentinel; and the
scan does complete whenever every sphere's intersection test
completes. -/
theorem C2_hit_nearest (sq : ℚ → ℚ) (scene : Scene) (ray : Ray) :
    (∀ p s, Scene.hit sq scene ray = .ok (some (p, s)) →
      s ∈ scene.objects ∧
      ∃ t : ℚ, s.intersect sq ray = .ok (some t) ∧ p = ray.point t ∧
        ∀ s' ∈ scene.objects, ∀ t' : ℚ,
          s'.intersect sq ray = .ok (some t') → t ≤ t') ∧
    ((∀ s ∈ scene.objects, s.intersect sq ray = .ok none) →
      Scene.hit sq scene ray = .ok none) ∧
    (∀ s0 ∈ scene.objects, ∀ t0 : ℚ,
      s0.intersect sq ray = .ok (some t0) →
      Scene.hit sq scene ray ≠ .ok none) ∧
    (∀ (ls : List Light) (s1 s2 : Sphere) (t1 t2 : ℚ),
      s1.intersect sq ray = .ok (some t1) →
      s2.intersect sq ray = .ok (some t2) → t1 < t2 →
      Scene.hit sq ⟨ls, [s1, s2]⟩ ray = .ok (some (ray.point t1, s1)) ∧
      Scene.hit sq ⟨ls, [s2, s1]⟩ ray = .ok (some (ray.point t1, s1))) ∧
    ((∀ s' ∈ scene.objects, ∃ r0 : Option ℚ,
        s'.intersect sq ray = .ok r0) →
      ∃ r : Option (Vector3 × Sphere), Scene.hit sq scene ray = .ok r) := by
  refine ⟨?_, ?_, ?_, ?_, ?_⟩
  · intro p s hok
    unfold Scene.hit at hok
    rcases hl : Scene.hitLoop sq ray scene.objects none with e | acc
    · rw [hl] at hok
      simp at hok
    rw [hl] at hok
    simp only [ok_bind] at hok
    rcases acc with - | ⟨ct, co⟩
    · exact absurd (Except.ok.inj hok) (by simp)
    · obtain hpair : some (ray.point ct, co) = some (p, s) :=
        Except.ok.inj hok
      obtain ⟨hp, hs⟩ := Prod.mk.injEq .. ▸ Option.some.inj hpair
      obtain ⟨-, ihs⟩ := Scene.hitLoop_spec sq ray scene.objects none _ hl
      obtain ⟨hdisj, hmin, -⟩ := ihs ct co rfl
      rcases hdisj with h1 | ⟨h1, h2⟩
      · exact absurd h1 (by simp)
      · subst hs
        exact ⟨h1, ct, h2, hp.symm, hmin⟩
  · intro hall
    unfold Scene.hit
    rw [Scene.hitLoop_all_none sq ray scene.objects none hall]
    rfl
  · intro s0 hs0 t0 ht0 hok
    unfold Scene.hit at hok
    rcases hl : Scene.hitLoop sq ray scene.objects none with e | acc
    · rw [hl] at hok
      simp at hok
    rw [hl] at hok
    simp only [ok_bind] at hok
    rcases acc with - | ⟨ct, co⟩
    · obtain ⟨-, hnone⟩ :=
        (Scene.hitLoop_spec sq ray scene.objects none _ hl).1 rfl
      rw [hnone s0 hs0] at ht0
      exact absurd (Except.ok.inj ht0) (by simp)
    · exact absurd (Except.ok.inj hok) (by simp)
  · intro ls s1 s2 t1 t2 h1 h2 hlt
    constructor
    · show Scene.hit sq ⟨ls, [s1, s2]⟩ ray = _
      unfold Scene.hit
      show (Scene.hitLoop sq ray [s1, s2] none >>= _) = _
      rw [Scene.hitLoop, h1]
      simp only [ok_bind]
      show (Scene.hitLoop sq ray [s2] (some (t1, s1)) >>= _) = _
      rw [Scene.hitLoop, h2]
      simp only [ok_bind]
      show ((if t2 < t1 then Scene.hitLoop sq ray [] (some (t2, s2))
          else Scene.hitLoop sq ray [] (some (t1, s1))) >>= _) = _
      rw [if_neg (not_lt.mpr (le_of_lt hlt))]
      rfl
    · show Scene.hit sq ⟨ls, [s2, s1]⟩ ray = _
      unfold Scene.hit
      show (Scene.hitLoop sq ray [s2, s1] none >>= _) = _
      rw [Scene.hitLoop, h2]
      simp only [ok_bind]
      show (Scene.hitLoop sq ray [s1] (some (t2, s2)) >>= _) = _
      rw [Scene.hitLoop, h1]
      simp only [ok_bind]
      show ((if t1 < t2 then Scene.hitLoop sq ray [] (some (t1, s1))
          else Scene.hitLoop sq ray [] (some (t2, s2))) >>= _) = _
      rw [if_pos hlt]
      rfl
  · intro hall
    obtain ⟨acc', h⟩ := Scene.hitLoop_total sq ray scene.objects hall none
    unfold Scene.hit
    rw [h]
    simp only [ok_bind]
    rcases acc' with - | ⟨ct, co⟩
    · exact ⟨none, rfl⟩
    · exact ⟨some (ray.point ct, co), rfl⟩

/-- Witness for C2: `rayZ` meets the near sphere at t = 1 and the far
sphere at t = 4; in both storage orders the scene hit is the near
sphere at the point (0,0,1), and it is minimal. -/
theorem C2_witness :
    sphereNear.intersect sqrtC rayZ = .ok (some 1) ∧
    sphereFar.intersect sqrtC rayZ = .ok (some 4) ∧
    (1 : ℚ) < 4 ∧
    Scene.hit sqrtC ⟨[], [sphereNear, sphereFar]⟩ rayZ
      = .ok (some (rayZ.point 1, sphereNear)) ∧
    Scene.hit sqrtC ⟨[], [sphereFar, sphereNear]⟩ rayZ
      = .ok (some (rayZ.point 1, sphereNear)) ∧
    (sphereNear ∈ (Scene.mk [] [sphereNear, sphereFar]).objects ∧
      ∃ t : ℚ, sphereNear.intersect sqrtC rayZ = .ok (some t) ∧
        rayZ.point 1 = rayZ.point t ∧
        ∀ s' ∈ (Scene.mk [] [sphereNear, sphereFar]).objects, ∀ t' : ℚ,
          s'.intersect sqrtC rayZ = .ok (some t') → t ≤ t') ∧
    (∀ s' ∈ (Scene.mk [] [sphereNear, sphereFar]).objects,
      ∃ r0 : Option ℚ, s'.intersect sqrtC rayZ = .ok r0) ∧
    (∃ r : Option (Vector3 × Sphere),
      Scene.hit sqrtC ⟨[], [sphereNear, sphereFar]⟩ rayZ = .ok r) := by
  have h1 : sphereNear.intersect sqrtC rayZ = .ok (some 1) := by
    norm_num [Sphere.intersect, qdiv, Vector3.dot, sphereNear, rayZ,
      matPlain, sqrtC]
  have h2 : sphereFar.intersect sqrtC rayZ = .ok (some 4) := by
    norm_num [Sphere.intersect, qdiv, Vector3.dot, sphereFar, rayZ,
      matPlain, sqrtC]
  have hlt : (1 : ℚ) < 4 := by norm_num
  have hall : ∀ s' ∈ (Scene.mk [] [sphereNear, sphereFar]).objects,
      ∃ r0 : Option ℚ, s'.intersect sqrtC rayZ = .ok r0 := by
    intro s' hs'
    rcases List.mem_cons.mp hs' with rfl | hs'
    · exact ⟨some 1, h1⟩
    · rcases List.mem_cons.mp hs' with rfl | hs'
      · exact ⟨some 4, h2⟩
      · simp at hs'
  obtain ⟨ha, hb⟩ :=
    (C2_hit_nearest sqrtC ⟨[], [sphereNear, sphereFar]⟩ rayZ).2.2.2.1
      [] sphereNear sphereFar 1 4 h1 h2 hlt
  exact ⟨h1, h2, hlt, ha, hb,
    (C2_hit_nearest sqrtC ⟨[], [sphereNear, sphereFar]⟩ rayZ).1
      (rayZ.point 1) sphereNear ha,
    hall,
    (C2_hit_nearest sqrtC ⟨[], [sphereNear, sphereFar]⟩ rayZ).2.2.2.2 hall⟩

/-- `Ray.color` on a clean miss: the background color. -/
theorem Ray.color_of_miss (sq : ℚ → ℚ) (self : Ray) (scene : Scene)
    (depth max_depth : ℕ)
    (h : Scene.hit sq scene self = .ok none) :
    Ray.color sq self scene depth max_depth = .ok (bgColor self) := by
  rw [Ray.color, h]

/-- `Ray.color` on a hit with exhausted depth: the background color. -/
theorem Ray.color_of_exhausted (sq : ℚ → ℚ) (self : Ray) (scene : Scene)
    (depth max_depth : ℕ) (p : Vector3) (obj : Sphere)
    (h : Scene.hit sq scene self = .ok (some (p, obj)))
    (hd : depth ≥ max_depth) :
    Ray.color sq self scene depth max_depth = .ok (bgColor self) := by
  rw [Ray.color, h]
  exact dif_pos hd

/-- `Ray.color` on a live hit: the local color, blended with the color
of the recursive reflection ray (which is evaluated with the default
max_depth 3) when the material reflects. -/
theorem Ray.color_of_hit (sq : ℚ → ℚ) (self : Ray) (scene : Scene)
    (depth max_depth : ℕ) (p : Vector3) (obj : Sphere)
    (h : Scene.hit sq scene self = .ok (some (p, obj)))
    (hd : ¬ depth ≥ max_depth) :
    Ray.color sq self scene depth max_depth =
      (if 0 < obj.material.reflectivity then
        match Ray.color sq
            ⟨p + (obj.normal_vector sq p).smul (1/100),
              self.direction.reflect (obj.normal_vector sq p)⟩
            scene (depth + 1) 3 with
        | .error e => .error e
        | .ok ref_color =>
            .ok (Ray.mix_color
              (localColor sq obj.material (obj.normal_vector sq p)
                (-(self.direction.normalize sq)) p scene.lighting)
              ref_color obj.material.reflectivity)
      else
        .ok (localColor sq obj.material (obj.normal_vector sq p)
          (-(self.direction.normalize sq)) p scene.lighting)) := by
  rw [Ray.color, h]
  exact dif_neg hd

/-- Claim C4: whenever the scene's hit query completes with the no-hit
sentinel, or the depth bound is reached, the shader returns the
background gradient (1−alpha)·(1,1,1) + alpha·(0.5,0.7,1.0) with
alpha = 0.5·(direction.y + 1), an expression independent of the scene's
lights and materials. -/
theorem C4_background (sq : ℚ → ℚ) (self : Ray) (scene : Scene)
    (depth max_depth : ℕ) (r : Option (Vector3 × Sphere))
    (hhit : Scene.hit sq scene self = .ok r)
    (hbase : r = none ∨ depth ≥ max_depth) :
    Ray.color sq self scene depth max_depth =
      .ok ((Vector3.mk 1 1 1).smul (1 - 1/2 * (self.direction.y + 1))
        + (Vector3.mk (1/2) (7/10) 1).smul (1/2 * (self.direction.y + 1))) := by
  have hbg : bgColor self =
      (Vector3.mk 1 1 1).smul (1 - 1/2 * (self.direction.y + 1))
        + (Vector3.mk (1/2) (7/10) 1).smul (1/2 * (self.direction.y + 1)) := rfl
  rcases hbase with rfl | hd
  · rw [Ray.color_of_miss sq self scene depth max_depth hhit, hbg]
  · rcases r with - | ⟨p, obj⟩
    · rw [Ray.color_of_miss sq self scene depth max_depth hhit, hbg]
    · rw [Ray.color_of_exhausted sq self scene depth max_depth p obj hhit hd,
        hbg]

/-- Witness for C4: the empty scene misses, giving the gradient at
direction (0,0,1), namely (3/4, 17/20, 1); and a scene that is hit
still yields the background once depth ≥ max_depth (5 ≥ 3). -/
theorem C4_witness :
    Scene.hit sqrtC sceneEmpty rayZ = .ok none ∧
    Scene.hit sqrtC sceneMirror rayZ
      = .ok (some (⟨0, 0, 1⟩, sphereMirror)) ∧
    Ray.color sqrtC rayZ sceneEmpty 0 3 = .ok ⟨3/4, 17/20, 1⟩ ∧
    Ray.color sqrtC rayZ sceneMirror 5 3 = .ok ⟨3/4, 17/20, 1⟩ := by
  have h1 : Scene.hit sqrtC sceneEmpty rayZ = .ok none := rfl
  have h2 : Scene.hit sqrtC sceneMirror rayZ
      = .ok (some (⟨0, 0, 1⟩, sphereMirror)) := by
    have hint : sphereMirror.intersect sqrtC rayZ = .ok (some 1) := by
      norm_num [Sphere.intersect, qdiv, Vector3.dot, sphereMirror, rayZ,
        matMirror, sqrtC]
    have hloop : Scene.hitLoop sqrtC rayZ sceneMirror.objects none
        = .ok (some (1, sphereMirror)) := by
      show Scene.hitLoop sqrtC rayZ [sphereMirror] none = _
      rw [Scene.hitLoop, hint]
      rfl
    unfold Scene.hit
    rw [hloop]
    simp only [ok_bind]
    show Except.ok (some (rayZ.point 1, sphereMirror)) = _
    norm_num [Ray.point, rayZ, Vector3.smul]
  have hv : ((Vector3.mk 1 1 1).smul (1 - 1/2 * (rayZ.direction.y + 1))
      + (Vector3.mk (1/2) (7/10) 1).smul (1/2 * (rayZ.direction.y + 1)))
      = ⟨3/4, 17/20, 1⟩ := by
    norm_num [Vector3.smul, rayZ]
  refine ⟨h1, h2, ?_, ?_⟩
  · rw [C4_background sqrtC rayZ sceneEmpty 0 3 none h1 (Or.inl rfl), hv]
  · rw [C4_background sqrtC rayZ sceneMirror 5 3 _ h2
      (Or.inr (by norm_num)), hv]

/-- The per-light contribution of the shading loop: diffuse plus
specular, as the loop computes them. -/
def lightContrib (sq : ℚ → ℚ) (m : Material)
    (normal view_dir hit_point : Vector3) (light : Light) : Vector3 :=
  (m.diffuse_color.hmul light.color).smul
      (max (normal.dot ((light.position - hit_point).normalize sq)) 0)
    + (m.specular_color.hmul light.color).smul
      ((max (((-view_dir).reflect normal).dot view_dir) 0) ^ m.shininess)

/-- The shading loop starting from any accumulator adds exactly the sum
of the per-light contributions. -/
theorem localColorLoop_eq (sq : ℚ → ℚ) (m : Material)
    (normal view_dir hit_point : Vector3) :
    ∀ (lights : List Light) (color : Vector3),
      localColorLoop sq m normal view_dir hit_point lights color =
        color + sumColors
          (lights.map (lightContrib sq m normal view_dir hit_point)) := by
  intro lights
  induction lights with
  | nil =>
    intro color
    simp [localColorLoop, sumColors]
  | cons light rest ih =>
    intro color
    rw [localColorLoop, ih]
    have hc : sumColors ((light :: rest).map
          (lightContrib sq m normal view_dir hit_point))
        = lightContrib sq m normal view_dir hit_point light
          + sumColors (rest.map
              (lightContrib sq m normal view_dir hit_point)) := rfl
    rw [hc]
    unfold lightContrib
    simp only [Vector3.add_def, Vector3.mk.injEq]
    refine ⟨by ring, by ring, by ring⟩

/-- Claim C3: the accumulated local color of the shading loop equals the
sum over all lights of diffuse_color ⊙ light.color scaled by
max(normal·light_dir, 0) plus specular_color ⊙ light.color scaled by
max(reflect_dir·view_dir, 0)^shininess (with light_dir the normalized
vector to the light, reflect_dir the reflection of −view_dir about the
normal), with no occlusion test filtering any light; the lights'
intensity fields never affect the result; and on a resolved hit
(hit reported, depth < max_depth) with a non-reflective material the
shader returns exactly this local color, with view_dir the negated
normalized ray direction. -/
theorem C3_local_color_sum :
    (∀ (sq : ℚ → ℚ) (m : Material) (normal view_dir hit_point : Vector3)
        (lights : List Light),
      localColor sq m normal view_dir hit_point lights =
        sumColors (lights.map
          (lightContrib sq m normal view_dir hit_point))) ∧
    (∀ (sq : ℚ → ℚ) (m : Material) (normal view_dir hit_point : Vector3)
        (lights : List Light) (f : Light → ℚ),
      localColor sq m normal view_dir hit_point
          (lights.map (fun l => Light.mk l.position l.color (f l)))
        = localColor sq m normal view_dir hit_point lights) ∧
    (∀ (sq : ℚ → ℚ) (ray : Ray) (scene : Scene) (depth max_depth : ℕ)
        (p : Vector3) (obj : Sphere),
      Scene.hit sq scene ray = .ok (some (p, obj)) →
      depth < max_depth →
      obj.material.reflectivity ≤ 0 →
      Ray.color sq ray scene depth max_depth =
        .ok (localColor sq obj.material (obj.normal_vector sq p)
          (-(ray.direction.normalize sq)) p scene.lighting)) := by
  refine ⟨?_, ?_, ?_⟩
  · intro sq m normal view_dir hit_point lights
    unfold localColor
    rw [localColorLoop_eq]
    exact Vector3.add_zero_left _
  · intro sq m normal view_dir hit_point lights f
    unfold localColor
    rw [localColorLoop_eq, localColorLoop_eq, List.map_map]
    rfl
  · intro sq ray scene depth md p obj hhit hlt hrefl
    rw [Ray.color_of_hit sq ray scene depth md p obj hhit (not_le.mpr hlt)]
    rw [if_neg (not_lt.mpr hrefl)]

/-- Witness for C3: the +z ray resolves a hit on the plain sphere at
(0,0,1) with depth 0 < 3 and reflectivity 0, and the shader returns
exactly the accumulated local color (here over an empty light list). -/
theorem C3_witness :
    Scene.hit sqrtC scenePlain rayZ = .ok (some (⟨0, 0, 1⟩, sphereNear)) ∧
    (0 : ℕ) < 3 ∧
    sphereNear.material.reflectivity ≤ 0 ∧
    Ray.color sqrtC rayZ scenePlain 0 3
      = .ok (localColor sqrtC sphereNear.material
          (sphereNear.normal_vector sqrtC ⟨0, 0, 1⟩)
          (-(rayZ.direction.normalize sqrtC)) ⟨0, 0, 1⟩
          scenePlain.lighting) := by
  have hint : sphereNear.intersect sqrtC rayZ = .ok (some 1) := by
    norm_num [Sphere.intersect, qdiv, Vector3.dot, sphereNear, rayZ,
      matPlain, sqrtC]
  have hloop : Scene.hitLoop sqrtC rayZ scenePlain.objects none
      = .ok (some (1, sphereNear)) := by
    show Scene.hitLoop sqrtC rayZ [sphereNear] none = _
    rw [Scene.hitLoop, hint]
    rfl
  have hhit : Scene.hit sqrtC scenePlain rayZ
      = .ok (some (⟨0, 0, 1⟩, sphereNear)) := by
    unfold Scene.hit
    rw [hloop]
    simp only [ok_bind]
    show Except.ok (some (rayZ.point 1, sphereNear)) = _
    norm_num [Ray.point, rayZ, Vector3.smul]
  have hrefl : sphereNear.material.reflectivity ≤ 0 := by
    norm_num [sphereNear, matPlain]
  exact ⟨hhit, by norm_num, hrefl,
    C3_local_color_sum.2.2 sqrtC rayZ scenePlain 0 3 ⟨0, 0, 1⟩ sphereNear
      hhit (by norm_num) hrefl⟩

/-- Claim C5: on a resolved hit with reflectivity strictly positive the
shader spawns the reflection ray from hit_point + 0.01·normal in
direction reflect(ray.direction, normal), evaluates it recursively at
depth+1 (the recursive call carries the default max_depth 3, per line
137 of the source), and blends (1−reflectivity)·local +
reflectivity·reflected; with reflectivity 0 the local color is returned
unchanged. -/
theorem C5_reflection_blend (sq : ℚ → ℚ) (ray : Ray) (scene : Scene)
    (depth max_depth : ℕ) (p : Vector3) (obj : Sphere)
    (hhit : Scene.hit sq scene ray = .ok (some (p, obj)))
    (hd : depth < max_depth) :
    (0 < obj.material.reflectivity →
      Ray.color sq ray scene depth max_depth =
        (Ray.color sq
            ⟨p + (obj.normal_vector sq p).smul (1/100),
              ray.direction.reflect (obj.normal_vector sq p)⟩
            scene (depth + 1) 3).map
          (fun ref_color =>
            (localColor sq obj.material (obj.normal_vector sq p)
              (-(ray.direction.normalize sq)) p scene.lighting).smul
                (1 - obj.material.reflectivity)
            + ref_color.smul obj.material.reflectivity)) ∧
    (obj.material.reflectivity = 0 →
      Ray.color sq ray scene depth max_depth =
        .ok (localColor sq obj.material (obj.normal_vector sq p)
          (-(ray.direction.normalize sq)) p scene.lighting)) := by
  constructor
  · intro hrefl
    rw [Ray.color_of_hit sq ray scene depth max_depth p obj hhit
      (not_le.mpr hd)]
    rw [if_pos hrefl]
    rcases Ray.color sq
        ⟨p + (obj.normal_vector sq p).smul (1/100),
          ray.direction.reflect (obj.normal_vector sq p)⟩
        scene (depth + 1) 3 with e | ref_color
    · rfl
    · rfl
  · intro hrefl
    rw [Ray.color_of_hit sq ray scene depth max_depth p obj hhit
      (not_le.mpr hd)]
    rw [if_neg (by rw [hrefl]; exact lt_irrefl 0)]

/-- Witness for C5: the mirror sphere (reflectivity 9/10) resolved by
the +z ray at depth 0 < 3 satisfies the blend equation, and a plain hit
with reflectivity 0 returns the local color. -/
theorem C5_witness :
    Scene.hit sqrtC sceneMirror rayZ
      = .ok (some (⟨0, 0, 1⟩, sphereMirror)) ∧
    (0 : ℚ) < sphereMirror.material.reflectivity ∧
    Ray.color sqrtC rayZ sceneMirror 0 3 =
      (Ray.color sqrtC
          ⟨(⟨0, 0, 1⟩ : Vector3)
              + ((sphereMirror.normal_vector sqrtC ⟨0, 0, 1⟩).smul (1/100)),
            rayZ.direction.reflect
              (sphereMirror.normal_vector sqrtC ⟨0, 0, 1⟩)⟩
          sceneMirror 1 3).map
        (fun ref_color =>
          (localColor sqrtC sphereMirror.material
            (sphereMirror.normal_vector sqrtC ⟨0, 0, 1⟩)
            (-(rayZ.direction.normalize sqrtC)) ⟨0, 0, 1⟩
            sceneMirror.lighting).smul
              (1 - sphereMirror.material.reflectivity)
          + ref_color.smul sphereMirror.material.reflectivity) := by
  have hint : sphereMirror.intersect sqrtC rayZ = .ok (some 1) := by
    norm_num [Sphere.intersect, qdiv, Vector3.dot, sphereMirror, rayZ,
      matMirror, sqrtC]
  have hloop : Scene.hitLoop sqrtC rayZ sceneMirror.objects none
      = .ok (some (1, sphereMirror)) := by
    show Scene.hitLoop sqrtC rayZ [sphereMirror] none = _
    rw [Scene.hitLoop, hint]
    rfl
  have hhit : Scene.hit sqrtC sceneMirror rayZ
      = .ok (some (⟨0, 0, 1⟩, sphereMirror)) := by
    unfold Scene.hit
    rw [hloop]
    simp only [ok_bind]
    show Except.ok (some (rayZ.point 1, sphereMirror)) = _
    norm_num [Ray.point, rayZ, Vector3.smul]
  have hrefl : (0 : ℚ) < sphereMirror.material.reflectivity := by
    norm_num [sphereMirror, matMirror]
  exact ⟨hhit, hrefl,
    (C5_reflection_blend sqrtC rayZ sceneMirror 0 3 ⟨0, 0, 1⟩ sphereMirror
      hhit (by norm_num)).1 hrefl⟩

/-- `shadeDepths` on a clean miss records nothing. -/
theorem shadeDepths_of_miss (sq : ℚ → ℚ) (self : Ray) (scene : Scene)
    (depth max_depth : ℕ)
    (h : Scene.hit sq scene self = .ok none) :
    shadeDepths sq self scene depth max_depth = [] := by
  rw [shadeDepths, h]

/-- `shadeDepths` records nothing once depth reaches the bound. -/
theorem shadeDepths_of_exhausted (sq : ℚ → ℚ) (self : Ray) (scene : Scene)
    (depth max_depth : ℕ)
    (hd : depth ≥ max_depth) :
    shadeDepths sq self scene depth max_depth = [] := by
  rcases h : Scene.hit sq scene self with e | r
  · rw [shadeDepths, h]
  · rcases r with - | ⟨p, obj⟩
    · rw [shadeDepths, h]
    · rw [shadeDepths, h]
      exact dif_pos hd

/-- `shadeDepths` on a raised error records nothing. -/
theorem shadeDepths_of_error (sq : ℚ → ℚ) (self : Ray) (scene : Scene)
    (depth max_depth : ℕ) (e : Err)
    (h : Scene.hit sq scene self = .error e) :
    shadeDepths sq self scene depth max_depth = [] := by
  rw [shadeDepths, h]

/-- `shadeDepths` on a live hit records the current depth and follows
the reflection recursion (which carries the default max_depth 3). -/
theorem shadeDepths_of_hit (sq : ℚ → ℚ) (self : Ray) (scene : Scene)
    (depth max_depth : ℕ) (p : Vector3) (obj : Sphere)
    (h : Scene.hit sq scene self = .ok (some (p, obj)))
    (hd : ¬ depth ≥ max_depth) :
    shadeDepths sq self scene depth max_depth =
      (if 0 < obj.material.reflectivity then
        depth :: shadeDepths sq
          ⟨p + (obj.normal_vector sq p).smul (1/100),
            self.direction.reflect (obj.normal_vector sq p)⟩
          scene (depth + 1) 3
      else [depth]) := by
  rw [shadeDepths, h]
  exact dif_neg hd

/-- The mirror scene resolves `rayZ` at (0,0,1). -/
theorem hit_mirror_rayZ :
    Scene.hit sqrtC sceneMirror rayZ
      = .ok (some (⟨0, 0, 1⟩, sphereMirror)) := by
  have hint : sphereMirror.intersect sqrtC rayZ = .ok (some 1) := by
    norm_num [Sphere.intersect, qdiv, Vector3.dot, sphereMirror, rayZ,
      matMirror, sqrtC]
  have hloop : Scene.hitLoop sqrtC rayZ sceneMirror.objects none
      = .ok (some (1, sphereMirror)) := by
    show Scene.hitLoop sqrtC rayZ [sphereMirror] none = _
    rw [Scene.hitLoop, hint]
    rfl
  unfold Scene.hit
  rw [hloop]
  simp only [ok_bind]
  show Except.ok (some (rayZ.point 1, sphereMirror)) = _
  norm_num [Ray.point, rayZ, Vector3.smul]

/-- The mirror scene resolves the first reflection ray at (0,0,1) again
(t = 0.01 exceeds the 0.001 epsilon, so the bounce re-hits). -/
theorem hit_mirror_rayR1 :
    Scene.hit sqrtC sceneMirror rayR1
      = .ok (some (⟨0, 0, 1⟩, sphereMirror)) := by
  have hint : sphereMirror.intersect sqrtC rayR1 = .ok (some (1/100)) := by
    norm_num [Sphere.intersect, qdiv, Vector3.dot, sphereMirror, rayR1,
      matMirror, sqrtC]
  have hloop : Scene.hitLoop sqrtC rayR1 sceneMirror.objects none
      = .ok (some (1/100, sphereMirror)) := by
    show Scene.hitLoop sqrtC rayR1 [sphereMirror] none = _
    rw [Scene.hitLoop, hint]
    rfl
  unfold Scene.hit
  rw [hloop]
  simp only [ok_bind]
  show Except.ok (some (rayR1.point (1/100), sphereMirror)) = _
  norm_num [Ray.point, rayR1, Vector3.smul]

/-- The second reflection ray leaves the mirror scene without a hit
(both roots fall below the 0.001 epsilon). -/
theorem hit_mirror_rayR2 :
    Scene.hit sqrtC sceneMirror rayR2 = .ok none := by
  have hint : sphereMirror.intersect sqrtC rayR2 = .ok none := by
    norm_num [Sphere.intersect, qdiv, Vector3.dot, sphereMirror, rayR2,
      matMirror, sqrtC]
  have hloop : Scene.hitLoop sqrtC rayR2 sceneMirror.objects none
      = .ok none := by
    show Scene.hitLoop sqrtC rayR2 [sphereMirror] none = _
    rw [Scene.hitLoop, hint]
    rfl
  unfold Scene.hit
  rw [hloop]
  rfl

/-- The outward normal of the mirror sphere at (0,0,1). -/
theorem normal_mirror : sphereMirror.normal_vector sqrtC ⟨0, 0, 1⟩
    = ⟨0, 0, 1⟩ := by
  norm_num [Sphere.normal_vector, Vector3.normalize, Vector3.length,
    sphereMirror, sqrtC]

/-- With the supplied bound 1, the mirror scene still evaluates local
illumination at depths 0 and 1: the recursive call reverts to the
default bound 3. -/
theorem shadeDepths_mirror_eval :
    shadeDepths sqrtC rayZ sceneMirror 0 1 = [0, 1] := by
  have hrefl : 0 < sphereMirror.material.reflectivity := by
    norm_num [sphereMirror, matMirror]
  have e1 : (Ray.mk ((⟨0, 0, 1⟩ : Vector3)
        + (sphereMirror.normal_vector sqrtC ⟨0, 0, 1⟩).smul (1/100))
        (rayZ.direction.reflect (sphereMirror.normal_vector sqrtC ⟨0, 0, 1⟩)))
      = rayR1 := by
    rw [normal_mirror]
    norm_num [rayZ, rayR1, Vector3.smul, Vector3.reflect, Vector3.dot]
  have e2 : (Ray.mk ((⟨0, 0, 1⟩ : Vector3)
        + (sphereMirror.normal_vector sqrtC ⟨0, 0, 1⟩).smul (1/100))
        (rayR1.direction.reflect (sphereMirror.normal_vector sqrtC ⟨0, 0, 1⟩)))
      = rayR2 := by
    rw [normal_mirror]
    norm_num [rayR1, rayR2, Vector3.smul, Vector3.reflect, Vector3.dot]
  calc shadeDepths sqrtC rayZ sceneMirror 0 1
      = 0 :: shadeDepths sqrtC rayR1 sceneMirror 1 3 := by
        rw [shadeDepths_of_hit sqrtC rayZ sceneMirror 0 1 ⟨0, 0, 1⟩
          sphereMirror hit_mirror_rayZ (by norm_num), if_pos hrefl, e1]
    _ = 0 :: 1 :: shadeDepths sqrtC rayR2 sceneMirror 2 3 := by
        rw [shadeDepths_of_hit sqrtC rayR1 sceneMirror 1 3 ⟨0, 0, 1⟩
          sphereMirror hit_mirror_rayR1 (by norm_num), if_pos hrefl, e2]
    _ = [0, 1] := by
        rw [shadeDepths_of_miss sqrtC rayR2 sceneMirror 2 3 hit_mirror_rayR2]

/-- Every depth the shader shades at stays below max(max_depth, 3), and
the number of shaded depths is at most max(max_depth, 3) − depth. -/
theorem shadeDepths_bound :
    ∀ (k : ℕ) (sq : ℚ → ℚ) (self : Ray) (scene : Scene)
      (depth max_depth : ℕ),
      max max_depth 3 - depth ≤ k →
      (∀ d ∈ shadeDepths sq self scene depth max_depth,
        d < max max_depth 3) ∧
      (shadeDepths sq self scene depth max_depth).length
        ≤ max max_depth 3 - depth := by
  intro k
  induction k with
  | zero =>
    intro sq self scene depth md hk
    have hd : depth ≥ md := by
      have := le_max_left md 3
      omega
    rw [shadeDepths_of_exhausted sq self scene depth md hd]
    exact ⟨by simp, by simp⟩
  | succ k ih =>
    intro sq self scene depth md hk
    rcases h : Scene.hit sq scene self with e | r
    · rw [shadeDepths_of_error sq self scene depth md e h]
      exact ⟨by simp, by simp⟩
    rcases r with - | ⟨p, obj⟩
    · rw [shadeDepths_of_miss sq self scene depth md h]
      exact ⟨by simp, by simp⟩
    by_cases hd : depth ≥ md
    · rw [shadeDepths_of_exhausted sq self scene depth md hd]
      exact ⟨by simp, by simp⟩
    have hdm : depth < md := not_le.mp hd
    have h3 : (3 : ℕ) ≤ max md 3 := le_max_right md 3
    have hm : md ≤ max md 3 := le_max_left md 3
    rw [shadeDepths_of_hit sq self scene depth md p obj h hd]
    by_cases hr : 0 < obj.material.reflectivity
    · rw [if_pos hr]
      have hrec := ih sq
        ⟨p + (obj.normal_vector sq p).smul (1/100),
          self.direction.reflect (obj.normal_vector sq p)⟩
        scene (depth + 1) 3 (by omega)
      constructor
      · intro d hdmem
        rcases List.mem_cons.mp hdmem with rfl | hdmem
        · omega
        · have := hrec.1 d hdmem
          omega
      · have := hrec.2
        simp only [List.length_cons]
        omega
    · rw [if_neg hr]
      constructor
      · intro d hdmem
        rcases List.mem_cons.mp hdmem with rfl | hdmem
        · omega
        · simp at hdmem
      · simp only [List.length_cons, List.length_nil]
        omega

/-- Counterexample to claim C6: with supplied max_depth 1 and initial
depth 0 on the mirror scene, the shader evaluates local illumination at
depths 0 and 1 — depth 1 is not below the supplied bound — and performs
2 evaluations, exceeding max_depth − depth = 1: the recursive call on
line 137 discards the supplied bound in favor of the default 3. -/
theorem C6_counterexample :
    shadeDepths sqrtC rayZ sceneMirror 0 1 = [0, 1] ∧
    ¬ (∀ d ∈ shadeDepths sqrtC rayZ sceneMirror 0 1, d < 1) ∧
    ¬ ((shadeDepths sqrtC rayZ sceneMirror 0 1).length ≤ 1 - 0) := by
  refine ⟨shadeDepths_mirror_eval, ?_, ?_⟩
  · intro hall
    have := hall 1 (by rw [shadeDepths_mirror_eval]; norm_num)
    omega
  · rw [shadeDepths_mirror_eval]
    norm_num

/-- Claim C6 amended: the supplied max_depth bounds only the top-level
call; each recursive reflection call is made with the default bound 3
(line 137), so local illumination is evaluated only at depths below
max(max_depth, 3), and the recursion always terminates after at most
max(max_depth, 3) − depth evaluations.  (Only when the supplied
max_depth is the default 3 is the claimed bound max_depth itself
enforced at every level.) -/
theorem C6_amended_depth_bound (sq : ℚ → ℚ) (self : Ray) (scene : Scene)
    (depth max_depth : ℕ) :
    (∀ d ∈ shadeDepths sq self scene depth max_depth,
      d < max max_depth 3) ∧
    (shadeDepths sq self scene depth max_depth).length
      ≤ max max_depth 3 - depth :=
  shadeDepths_bound (max max_depth 3 - depth) sq self scene depth max_depth
    le_rfl

/-- Witness for C6 (amended): on the mirror scene with supplied bound 1,
depth 1 is shaded and indeed 1 < max(1,3), and 2 ≤ max(1,3) − 0. -/
theorem C6_witness :
    (1 ∈ shadeDepths sqrtC rayZ sceneMirror 0 1 ∧ 1 < max 1 3) ∧
    (shadeDepths sqrtC rayZ sceneMirror 0 1).length ≤ max 1 3 - 0 := by
  have hmem : 1 ∈ shadeDepths sqrtC rayZ sceneMirror 0 1 := by
    rw [shadeDepths_mirror_eval]
    norm_num
  exact ⟨⟨hmem,
    (C6_amended_depth_bound sqrtC rayZ sceneMirror 0 1).1 1 hmem⟩,
    (C6_amended_depth_bound sqrtC rayZ sceneMirror 0 1).2⟩

/-- Claim C8: if summing one light's contribution into the accumulated
color raises the unsupported-operand TypeMismatch, the except clause
inside the loop catches it, the accumulator keeps its previous value
(the light's contribution is dropped), iteration continues with the
remaining lights, and a TypeMismatch never escapes the shading loop. -/
theorem C8_light_error_recovery (sq : ℚ → ℚ) (m : DMaterial)
    (normal view_dir hit_point : Vector3) (color : Value)
    (light : DLight) (rest : List DLight)
    (h : sumAttempt color (diffuseVal sq m normal hit_point light)
        (specularVal m normal view_dir light) = .error .typeMismatch) :
    lightLoopDyn sq m normal view_dir hit_point (light :: rest) color =
      lightLoopDyn sq m normal view_dir hit_point rest color ∧
    ∀ (lights : List DLight) (c : Value),
      lightLoopDyn sq m normal view_dir hit_point lights c
        ≠ .error .typeMismatch := by
  constructor
  · rw [lightLoopDyn, h]
  · intro lights
    induction lights with
    | nil =>
      intro c
      simp [lightLoopDyn]
    | cons l ls ih =>
      intro c
      rcases hs : sumAttempt c (diffuseVal sq m normal hit_point l)
          (specularVal m normal view_dir l) with e | c'
      · cases e with
        | divisionByZero =>
          rw [lightLoopDyn, hs]
          simp
        | typeMismatch =>
          rw [lightLoopDyn, hs]
          exact ih c
        | attributeError =>
          rw [lightLoopDyn, hs]
          simp
      · rw [lightLoopDyn, hs]
        exact ih c'

/-- Witness for C8: a numeric accumulator plus a vector diffuse raises
TypeMismatch inside the sum; the loop drops that light and finishes
cleanly with the accumulator intact. -/
theorem C8_witness :
    sumAttempt (.num 0) (diffuseVal sqrtC dmatC ⟨0, 0, 1⟩ ⟨0, 0, 0⟩ dlightC)
        (specularVal dmatC ⟨0, 0, 1⟩ ⟨0, 0, -1⟩ dlightC)
      = .error .typeMismatch ∧
    lightLoopDyn sqrtC dmatC ⟨0, 0, 1⟩ ⟨0, 0, -1⟩ ⟨0, 0, 0⟩ [dlightC] (.num 0)
      = lightLoopDyn sqrtC dmatC ⟨0, 0, 1⟩ ⟨0, 0, -1⟩ ⟨0, 0, 0⟩ [] (.num 0) ∧
    ∀ (lights : List DLight) (c : Value),
      lightLoopDyn sqrtC dmatC ⟨0, 0, 1⟩ ⟨0, 0, -1⟩ ⟨0, 0, 0⟩ lights c
        ≠ .error .typeMismatch := by
  have h : sumAttempt (.num 0)
      (diffuseVal sqrtC dmatC ⟨0, 0, 1⟩ ⟨0, 0, 0⟩ dlightC)
      (specularVal dmatC ⟨0, 0, 1⟩ ⟨0, 0, -1⟩ dlightC)
      = .error .typeMismatch := by
    have hdiff : diffuseVal sqrtC dmatC ⟨0, 0, 1⟩ ⟨0, 0, 0⟩ dlightC
        = .vec ⟨1, 0, 0⟩ := by
      norm_num [diffuseVal, dmatC, dlightC, mulVal, Vector3.normalize,
        Vector3.length, Vector3.dot, Vector3.smul, Vector3.hmul, sqrtC]
    rw [sumAttempt, hdiff]
    rfl
  obtain ⟨h1, h2⟩ := C8_light_error_recovery sqrtC dmatC
    ⟨0, 0, 1⟩ ⟨0, 0, -1⟩ ⟨0, 0, 0⟩ (.num 0) dlightC [] h
  exact ⟨h, h1, h2⟩

/-- Counterexample to claim C9 as stated: in-place division is an
operation exposed on Vector3, and it does not leave its receiver's
fields unchanged — dividing (1,2,3) by 2 in place leaves the receiver
holding (1/2, 1, 3/2). -/
theorem C9_counterexample :
    (applyOp (fun q => q) VecOp.itruedivOp ⟨1, 2, 3⟩ ⟨0, 0, 0⟩ 2).2
      ≠ ((⟨1, 2, 3⟩ : Vector3), (⟨0, 0, 0⟩ : Vector3)) := by
  unfold applyOp Vector3.itruediv
  norm_num

/-- Claim C9 amended: every operation Vector3 exposes except
`__itruediv__` returns a fresh value and leaves the fields of both its
operands unchanged; the vector operand is never mutated by any
operation; `__itruediv__` alone mutates its receiver, leaving it holding
the component-wise quotient (when the divisor is nonzero). -/
theorem C9_amended_immutability (sq : ℚ → ℚ) (op : VecOp)
    (self other : Vector3) (scalar : ℚ) :
    (op ≠ .itruedivOp →
      (applyOp sq op self other scalar).2 = (self, other)) ∧
    ((applyOp sq op self other scalar).2.2 = other) ∧
    (scalar ≠ 0 →
      (applyOp sq .itruedivOp self other scalar).2.1
        = ⟨self.x / scalar, self.y / scalar, self.z / scalar⟩) := by
  refine ⟨?_, ?_, ?_⟩
  · intro hne
    cases op with
    | truedivOp =>
        rcases h : self.truediv scalar with e | v
        · simp [applyOp, h]
        · simp [applyOp, h]
    | itruedivOp => exact absurd rfl hne
    | add => rfl
    | sub => rfl
    | negOp => rfl
    | mulVec => rfl
    | mulScalar => rfl
    | dotOp => rfl
    | crossOp => rfl
    | lengthOp => rfl
    | normalizeOp => rfl
    | reflectOp => rfl
    | rgbOp => rfl
  · cases op with
    | truedivOp =>
        rcases h : self.truediv scalar with e | v
        · simp [applyOp, h]
        · simp [applyOp, h]
    | itruedivOp =>
        rcases h : self.itruediv scalar with e | v
        · simp [applyOp, h]
        · simp [applyOp, h]
    | add => rfl
    | sub => rfl
    | negOp => rfl
    | mulVec => rfl
    | mulScalar => rfl
    | dotOp => rfl
    | crossOp => rfl
    | lengthOp => rfl
    | normalizeOp => rfl
    | reflectOp => rfl
    | rgbOp => rfl
  · intro hs
    rcases h : self.itruediv scalar with e | v
    · exfalso
      rw [Vector3.itruediv, if_neg hs] at h
      exact absurd h (by simp)
    · have hv : v = ⟨self.x / scalar, self.y / scalar, self.z / scalar⟩ := by
        have h' := h
        rw [Vector3.itruediv, if_neg hs] at h'
        exact (Except.ok.inj h').symm
      simp [applyOp, h, hv]

/-- Witness for C9 (amended): addition leaves (1,2,3) and (4,5,6)
untouched, and an in-place division by 2 leaves the receiver holding
the quotient. -/
theorem C9_witness :
    (VecOp.add ≠ VecOp.itruedivOp ∧
      (applyOp (fun q => q) VecOp.add ⟨1, 2, 3⟩ ⟨4, 5, 6⟩ 7).2
        = ((⟨1, 2, 3⟩ : Vector3), (⟨4, 5, 6⟩ : Vector3))) ∧
    ((2 : ℚ) ≠ 0 ∧
      (applyOp (fun q => q) VecOp.itruedivOp ⟨1, 2, 3⟩ ⟨4, 5, 6⟩ 2).2.1
        = ⟨(1 : ℚ)/2, (2 : ℚ)/2, (3 : ℚ)/2⟩) := by
  have hne : VecOp.add ≠ VecOp.itruedivOp := by simp
  have h2 : (2 : ℚ) ≠ 0 := by norm_num
  exact ⟨⟨hne,
      (C9_amended_immutability (fun q => q) VecOp.add
        ⟨1, 2, 3⟩ ⟨4, 5, 6⟩ 7).1 hne⟩,
    ⟨h2,
      (C9_amended_immutability (fun q => q) VecOp.itruedivOp
        ⟨1, 2, 3⟩ ⟨4, 5, 6⟩ 2).2.2 h2⟩⟩

@[simp] theorem pure_eq_ok {α : Type} (a : α) :
    (pure a : Except Err α) = .ok a := rfl

/-- Inversion for a successful Except bind. -/
theorem bind_ok_inv {α β : Type} (a : Except Err α) (f : α → Except Err β)
    (v : β) (h : (a >>= f) = .ok v) :
    ∃ w, a = .ok w ∧ f w = .ok v := by
  rcases a with e | w
  · simp at h
  · exact ⟨w, rfl, h⟩

/-- Element i of `List.range n`, via getD. -/
theorem getD_range (n i : ℕ) (hi : i < n) : (List.range n).getD i 0 = i := by
  rw [List.getD_eq_getElem _ _ (by simpa using hi)]
  simp

/-- A successful row holds, at index i, the successful pixel of the
i-th x value. -/
theorem renderRow_spec (sq : ℚ → ℚ) (camera : Camera) (scene : Scene)
    (width height y : ℕ) :
    ∀ (xs : List ℕ) (row : List (List ℕ)),
      renderRow sq camera scene width height y xs = .ok row →
      ∀ i, i < xs.length →
        ∃ px, renderPixel sq camera scene width height (xs.getD i 0) y
            = .ok px ∧
          row.getD i [] = px := by
  intro xs
  induction xs with
  | nil =>
    intro row h i hi
    simp at hi
  | cons a l ih =>
    intro row h i hi
    rw [renderRow] at h
    rcases hpx : renderPixel sq camera scene width height a y with e | px
    · rw [hpx] at h
      simp at h
    rcases hrest : renderRow sq camera scene width height y l with e | rest
    · rw [hpx, hrest] at h
      simp at h
    rw [hpx, hrest] at h
    simp only [ok_bind] at h
    obtain hrow : px :: rest = row := Except.ok.inj h
    subst hrow
    cases i with
    | zero => exact ⟨px, hpx, rfl⟩
    | succ i =>
      have hi' : i < l.length := by simpa using hi
      obtain ⟨px', h1, h2⟩ := ih rest hrest i hi'
      exact ⟨px', by simpa using h1, by simpa using h2⟩

/-- A successful grid holds, at index j, the successful row of the j-th
y value. -/
theorem renderRows_spec (sq : ℚ → ℚ) (camera : Camera) (scene : Scene)
    (width height : ℕ) :
    ∀ (ys : List ℕ) (rows : List (List (List ℕ))),
      renderRows sq camera scene width height ys = .ok rows →
      ∀ j, j < ys.length →
        ∃ row, renderRow sq camera scene width height (ys.getD j 0)
            (List.range width) = .ok row ∧
          rows.getD j [] = row := by
  intro ys
  induction ys with
  | nil =>
    intro rows h j hj
    simp at hj
  | cons a l ih =>
    intro rows h j hj
    rw [renderRows] at h
    rcases hrow : renderRow sq camera scene width height a (List.range width)
        with e | row
    · rw [hrow] at h
      simp at h
    rcases hrest : renderRows sq camera scene width height l with e | rest
    · rw [hrow, hrest] at h
      simp at h
    rw [hrow, hrest] at h
    simp only [ok_bind] at h
    obtain hrows : row :: rest = rows := Except.ok.inj h
    subst hrows
    cases j with
    | zero => exact ⟨row, hrow, rfl⟩
    | succ j =>
      have hj' : j < l.length := by simpa using hj
      obtain ⟨row', h1, h2⟩ := ih rest hrest j hj'
      exact ⟨row', by simpa using h1, by simpa using h2⟩

/-- Claim C7: for every pixel (x, y) of a successfully rendered buffer,
row y, column x of the row-major top-row-first buffer holds the 8-bit
conversion (clamp to [0,1], scale by 255, truncate) of the average —
sum divided by 4 — of the four shader colors of the camera rays for the
2×2 sub-sample grid u = (x + (sx+0.5)/2)/width,
v = (y + (sy+0.5)/2)/height, sx, sy ∈ {0, 1}, each shaded at depth 2
with the default max_depth 3. -/
theorem C7_pixel_average (sq : ℚ → ℚ) (camera : Camera) (scene : Scene)
    (width height x y : ℕ) (buf : List (List (List ℕ)))
    (hbuf : renderGrid sq camera scene width height = .ok buf)
    (hx : x < width) (hy : y < height) :
    ∃ c1 c2 c3 c4 : Vector3,
      Ray.color sq (camera.get_ray sq (sampleCoord width x 0)
        (sampleCoord height y 0)) scene 2 3 = .ok c1 ∧
      Ray.color sq (camera.get_ray sq (sampleCoord width x 1)
        (sampleCoord height y 0)) scene 2 3 = .ok c2 ∧
      Ray.color sq (camera.get_ray sq (sampleCoord width x 0)
        (sampleCoord height y 1)) scene 2 3 = .ok c3 ∧
      Ray.color sq (camera.get_ray sq (sampleCoord width x 1)
        (sampleCoord height y 1)) scene 2 3 = .ok c4 ∧
      (buf.getD y []).getD x []
        = Vector3.rgb ⟨(c1.x + c2.x + c3.x + c4.x) / 4,
            (c1.y + c2.y + c3.y + c4.y) / 4,
            (c1.z + c2.z + c3.z + c4.z) / 4⟩ := by
  unfold renderGrid at hbuf
  obtain ⟨row, hrow, hbufy⟩ := renderRows_spec sq camera scene width height
    (List.range height) buf hbuf y (by simpa using hy)
  rw [getD_range height y hy] at hrow
  obtain ⟨px, hpx, hrowx⟩ := renderRow_spec sq camera scene width height y
    (List.range width) row hrow x (by simpa using hx)
  rw [getD_range width x hx] at hpx
  simp only [renderPixel, show List.range 2 = [0, 1] from rfl,
    List.foldlM_cons, List.foldlM_nil, pure_eq_ok, ok_bind] at hpx
  obtain ⟨total, hT, hk⟩ := bind_ok_inv _ _ _ hpx
  obtain ⟨t1, hG0, hT2⟩ := bind_ok_inv _ _ _ hT
  obtain ⟨t01, hg00, hG0b⟩ := bind_ok_inv _ _ _ hG0
  obtain ⟨c1, hc1, he1⟩ := bind_ok_inv _ _ _ hg00
  obtain ⟨t02, hg01, hG0c⟩ := bind_ok_inv _ _ _ hG0b
  obtain ⟨c2, hc2, he2⟩ := bind_ok_inv _ _ _ hg01
  obtain ⟨t2, hG1, hT3⟩ := bind_ok_inv _ _ _ hT2
  obtain ⟨t11, hg10, hG1b⟩ := bind_ok_inv _ _ _ hG1
  obtain ⟨c3, hc3, he3⟩ := bind_ok_inv _ _ _ hg10
  obtain ⟨t12, hg11, hG1c⟩ := bind_ok_inv _ _ _ hG1b
  obtain ⟨c4, hc4, he4⟩ := bind_ok_inv _ _ _ hg11
  obtain ⟨avg, hdiv, hfin⟩ := bind_ok_inv _ _ _ hk
  have ht01 : (⟨0, 0, 0⟩ : Vector3) + c1 = t01 := Except.ok.inj he1
  have ht02 : t01 + c2 = t02 := Except.ok.inj he2
  have ht1 : t02 = t1 := Except.ok.inj hG0c
  have ht11 : t1 + c3 = t11 := Except.ok.inj he3
  have ht12 : t11 + c4 = t12 := Except.ok.inj he4
  have ht2 : t12 = t2 := Except.ok.inj hG1c
  have htot : t2 = total := Except.ok.inj hT3
  have havg : avg = ⟨(c1.x + c2.x + c3.x + c4.x) / 4,
      (c1.y + c2.y + c3.y + c4.y) / 4,
      (c1.z + c2.z + c3.z + c4.z) / 4⟩ := by
    have hne : (((2 : ℕ) : ℚ)) ^ 2 ≠ 0 := by norm_num
    rw [Vector3.itruediv, if_neg hne] at hdiv
    have := Except.ok.inj hdiv
    rw [← this, ← htot, ← ht2, ← ht12, ← ht11, ← ht1, ← ht02, ← ht01]
    simp only [Vector3.add_def, Vector3.mk.injEq]
    norm_num
  refine ⟨c1, c2, c3, c4, hc1, hc2, hc3, hc4, ?_⟩
  rw [hbufy, hrowx, ← Except.ok.inj hfin, havg]

/-- The degenerate camera maps every screen coordinate to the +z ray. -/
theorem camC_get_ray (u v : ℚ) : camC.get_ray sqrtC u v = rayZ := by
  unfold Camera.get_ray
  norm_num [camC, rayZ, Vector3.smul, Vector3.normalize, Vector3.length,
    sqrtC]

/-- Shading any +z ray in the empty scene gives the gradient color. -/
theorem color_empty_rayZ :
    Ray.color sqrtC rayZ sceneEmpty 2 3 = .ok ⟨3/4, 17/20, 1⟩ := by
  rw [Ray.color_of_miss sqrtC rayZ sceneEmpty 2 3 rfl]
  norm_num [bgColor, rayZ, Vector3.smul]

/-- The single pixel of a 1×1 render of the empty scene. -/
theorem renderPixel_empty :
    renderPixel sqrtC camC sceneEmpty 1 1 0 0 = .ok [191, 216, 255] := by
  simp only [renderPixel, show List.range 2 = [0, 1] from rfl,
    List.foldlM_cons, List.foldlM_nil, pure_eq_ok, ok_bind, camC_get_ray,
    color_empty_rayZ]
  have hne : (((2 : ℕ) : ℚ)) ^ 2 ≠ 0 := by norm_num
  rw [Vector3.itruediv, if_neg hne]
  simp only [ok_bind]
  have hv : ((((⟨0, 0, 0⟩ : Vector3) + ⟨3/4, 17/20, 1⟩) + ⟨3/4, 17/20, 1⟩)
        + ⟨3/4, 17/20, 1⟩ + ⟨3/4, 17/20, 1⟩ : Vector3)
      = ⟨3, 17/5, 4⟩ := by
    norm_num
  rw [hv]
  show Except.ok (Vector3.rgb ⟨3 / ((2:ℕ):ℚ)^2, (17/5) / ((2:ℕ):ℚ)^2,
    4 / ((2:ℕ):ℚ)^2⟩) = _
  have hw : (Vector3.mk (3 / ((2:ℕ):ℚ)^2) ((17/5) / ((2:ℕ):ℚ)^2)
      (4 / ((2:ℕ):ℚ)^2)) = ⟨3/4, 17/20, 1⟩ := by
    norm_num
  rw [hw]
  unfold Vector3.rgb
  norm_num [Int.floor_eq_iff]
  omega

/-- Witness for C7: the 1×1 render of the empty scene stores exactly the
8-bit conversion of the averaged four sky samples, (191, 216, 255). -/
theorem C7_witness :
    renderGrid sqrtC camC sceneEmpty 1 1 = .ok [[[191, 216, 255]]] ∧
    (0 < 1 ∧ 0 < 1) ∧
    ∃ c1 c2 c3 c4 : Vector3,
      Ray.color sqrtC (camC.get_ray sqrtC (sampleCoord 1 0 0)
        (sampleCoord 1 0 0)) sceneEmpty 2 3 = .ok c1 ∧
      Ray.color sqrtC (camC.get_ray sqrtC (sampleCoord 1 0 1)
        (sampleCoord 1 0 0)) sceneEmpty 2 3 = .ok c2 ∧
      Ray.color sqrtC (camC.get_ray sqrtC (sampleCoord 1 0 0)
        (sampleCoord 1 0 1)) sceneEmpty 2 3 = .ok c3 ∧
      Ray.color sqrtC (camC.get_ray sqrtC (sampleCoord 1 0 1)
        (sampleCoord 1 0 1)) sceneEmpty 2 3 = .ok c4 ∧
      (([[[191, 216, 255]]] : List (List (List ℕ))).getD 0 []).getD 0 []
        = Vector3.rgb ⟨(c1.x + c2.x + c3.x + c4.x) / 4,
            (c1.y + c2.y + c3.y + c4.y) / 4,
            (c1.z + c2.z + c3.z + c4.z) / 4⟩ := by
  have hrow : renderRow sqrtC camC sceneEmpty 1 1 0 [0]
      = .ok [[191, 216, 255]] := by
    rw [renderRow, renderPixel_empty]
    simp only [ok_bind]
    rw [show renderRow sqrtC camC sceneEmpty 1 1 0 [] = .ok [] from rfl]
    rfl
  have hgrid : renderGrid sqrtC camC sceneEmpty 1 1
      = .ok [[[191, 216, 255]]] := by
    unfold renderGrid
    rw [show List.range 1 = [0] from rfl, renderRows]
    rw [show List.range 1 = [0] from rfl, hrow]
    simp only [ok_bind]
    rw [show renderRows sqrtC camC sceneEmpty 1 1 [] = .ok [] from rfl]
    rfl
  exact ⟨hgrid, ⟨Nat.one_pos, Nat.one_pos⟩,
    C7_pixel_average sqrtC camC sceneEmpty 1 1 0 0 _ hgrid
      Nat.one_pos Nat.one_pos⟩

end RayTracer
